import Mathlib

/-! project-operator: reconciliation core.

A shallow embedding of `controllers/project_controller.go` and of the types of
`api/v1alpha1/project_types.go`.

* Go structs become Lean structures with the same field names.
* Go maps written as literals become association lists in literal order.
* The controller-runtime client (`r.Client`) is a record of three operations over
  an arbitrary cluster state; every operation is fallible.
* Every client call made by the controller is appended to a call log, so that
  statements such as "no create call is issued" can be expressed.
* Logging (`log.Info`, `log.Error`) has no effect on control flow and is left out.
-/

set_option autoImplicit false

namespace ProjectOperator

/-! ## Types of `api/v1alpha1/project_types.go` -/

/-- Stand-in for `resource.Quantity` (an external type): the quantity as written. -/
structure Quantity where
  text : String
  deriving DecidableEq, Repr

/-- Go struct `Requests`. -/
structure Requests where
  CPU : Quantity
  Memory : Quantity
  deriving DecidableEq, Repr

/-- Go struct `Limits`. -/
structure Limits where
  CPU : Quantity
  Memory : Quantity
  deriving DecidableEq, Repr

/-- Go struct `Resources`. -/
structure Resources where
  Requests : Requests
  Limits : Limits
  deriving DecidableEq, Repr

/-- Go struct `Environment`. -/
structure Environment where
  Name : String
  Resources : Resources
  deriving DecidableEq, Repr

/-- Go struct `ProjectSpec`; `Members` is `[]string`, `Environments` is `[]Environment`. -/
structure ProjectSpec where
  Members : List String
  Environments : List Environment
  deriving DecidableEq, Repr

/-- Go struct `Project`; of the embedded `ObjectMeta` only `Name` is read by the controller. -/
structure Project where
  Name : String
  Spec : ProjectSpec
  deriving DecidableEq, Repr

/-! ## Kubernetes objects built by the controller -/

/-- The fields of `metav1.ObjectMeta` that the controller sets. An unset `Namespace` is `""`. -/
structure ObjectMeta where
  Name : String
  Namespace : String
  Labels : List (String × String)
  deriving DecidableEq, Repr

/-- The object `corev1.Namespace`. -/
structure Namespace where
  ObjectMeta : ObjectMeta
  deriving DecidableEq, Repr

/-- The struct `corev1.ResourceQuotaSpec`; `Hard` is a `corev1.ResourceList`. -/
structure ResourceQuotaSpec where
  Hard : List (String × Quantity)
  deriving DecidableEq, Repr

/-- The object `corev1.ResourceQuota`. -/
structure ResourceQuota where
  ObjectMeta : ObjectMeta
  Spec : ResourceQuotaSpec
  deriving DecidableEq, Repr

/-- The struct `rbacv1.RoleRef`. -/
structure RoleRef where
  APIGroup : String
  Kind : String
  Name : String
  deriving DecidableEq, Repr

/-- The struct `rbacv1.Subject`. -/
structure Subject where
  Kind : String
  Name : String
  Namespace : String
  deriving DecidableEq, Repr

/-- The object `rbacv1.RoleBinding`. -/
structure RoleBinding where
  ObjectMeta : ObjectMeta
  RoleRef : RoleRef
  Subjects : List Subject
  deriving DecidableEq, Repr

/-- The three kinds of downstream object. -/
inductive Kind where
  | Namespace
  | ResourceQuota
  | RoleBinding
  deriving DecidableEq, Repr

/-- A downstream object of any of the three kinds (the `client.Object` passed to `Create`). -/
inductive Obj where
  | ns (n : Namespace)
  | rq (q : ResourceQuota)
  | rb (b : RoleBinding)
  deriving DecidableEq, Repr

/-- The struct `types.NamespacedName`. -/
structure NamespacedName where
  Namespace : String
  Name : String
  deriving DecidableEq, Repr

/-- What a `Get` is addressed to: the kind of the typed receiver and the `NamespacedName`. -/
structure Key where
  kind : Kind
  nn : NamespacedName
  deriving DecidableEq, Repr

/-- The metadata of a downstream object. -/
def Obj.meta : Obj → ObjectMeta
  | .ns n => n.ObjectMeta
  | .rq q => q.ObjectMeta
  | .rb b => b.ObjectMeta

/-- The kind of a downstream object. -/
def Obj.kind : Obj → Kind
  | .ns _ => Kind.Namespace
  | .rq _ => Kind.ResourceQuota
  | .rb _ => Kind.RoleBinding

/-- The key under which the cluster files an object: its own kind, namespace and name. -/
def Obj.key (o : Obj) : Key :=
  { kind := o.kind, nn := { Namespace := o.meta.Namespace, Name := o.meta.Name } }

/-! ## Errors and results -/

/-- An API error. `NotFound` and `AlreadyExists` are the two reasons the model distinguishes;
every other error is `Other` with a code. -/
inductive Err where
  | NotFound
  | AlreadyExists
  | Other (code : Nat)
  deriving DecidableEq, Repr

/-- The predicate `errors.IsNotFound`. -/
def IsNotFound : Err → Bool
  | .NotFound => true
  | _ => false

/-- The function `client.IgnoreNotFound`, applied to a non-nil error. -/
def IgnoreNotFound (err : Err) : Option Err :=
  if IsNotFound err then none else some err

/-- The struct `ctrl.Result` (the same type as `reconcile.Result`). -/
structure Result where
  Requeue : Bool
  RequeueAfter : Nat
  deriving DecidableEq, Repr

/-- The zero value `ctrl.Result{}`. -/
def Result.zero : Result := { Requeue := false, RequeueAfter := 0 }

/-- The struct `ctrl.Request`. -/
structure Request where
  NamespacedName : NamespacedName
  deriving DecidableEq, Repr

/-! ## The client and the call log -/

/-- The operations of `client.Client` used by the controller, over a cluster state `σ`.
`GetProject` is `Get` with a `*Project` receiver, `Get` is `Get` with a downstream receiver. -/
structure Client (σ : Type) where
  GetProject : NamespacedName → σ → Except Err Project × σ
  Get : Key → σ → Except Err Obj × σ
  Create : Obj → σ → Option Err × σ

/-- One client call. -/
inductive Call where
  | getProject (nn : NamespacedName)
  | get (k : Key)
  | create (o : Obj)
  deriving DecidableEq, Repr

/-- Whether a call is a `Create`. -/
def Call.isCreate : Call → Bool
  | .create _ => true
  | _ => false

/-- The state threaded through the controller: the cluster and the calls issued so far. -/
structure Run (σ : Type) where
  st : σ
  calls : List Call

/-- Start of an invocation: the given cluster state and an empty call log. -/
def Run.start {σ : Type} (s : σ) : Run σ := { st := s, calls := [] }

/-- The call `r.Client.Get(ctx, key, &project)`, logged. -/
def clientGetProject {σ : Type} (c : Client σ) (nn : NamespacedName) (r : Run σ) :
    Except Err Project × Run σ :=
  let out := c.GetProject nn r.st
  (out.1, { st := out.2, calls := r.calls ++ [Call.getProject nn] })

/-- The call `r.Client.Get(ctx, key, obj)` for a downstream receiver, logged. The fetched object
is never read by the controller, so only the error is returned. -/
def clientGet {σ : Type} (c : Client σ) (k : Key) (r : Run σ) : Option Err × Run σ :=
  let out := c.Get k r.st
  (match out.1 with
    | .ok _ => none
    | .error e => some e,
   { st := out.2, calls := r.calls ++ [Call.get k] })

/-- The call `r.Client.Create(ctx, obj)`, logged. -/
def clientCreate {σ : Type} (c : Client σ) (o : Obj) (r : Run σ) : Option Err × Run σ :=
  let out := c.Create o r.st
  (out.1, { st := out.2, calls := r.calls ++ [Call.create o] })

/-! ## `controllers/project_controller.go` -/

/-- Go function `projectlabels`. -/
def projectlabels (project : Project) (component : String) : List (String × String) :=
  [ ("app.kubernetes.io/name", project.Name),
    ("app.kubernetes.io/component", component),
    ("app.kubernetes.io/managed-by", "project-operator") ]

/-- Go method `describeNamespace`. -/
def describeNamespace (project : Project) (env : Environment) : Namespace :=
  { ObjectMeta :=
      { Name := project.Name ++ "-" ++ env.Name,
        Namespace := "",
        Labels := projectlabels project "namespace" } }

/-- Go method `describeResourceQuota`. -/
def describeResourceQuota (project : Project) (env : Environment) : ResourceQuota :=
  { ObjectMeta :=
      { Namespace := project.Name ++ "-" ++ env.Name,
        Name := "resource-quota",
        Labels := projectlabels project "resource-quota" },
    Spec :=
      { Hard :=
          [ ("requests.cpu", env.Resources.Requests.CPU),
            ("requests.memory", env.Resources.Requests.Memory),
            ("limits.cpu", env.Resources.Limits.CPU),
            ("limits.memory", env.Resources.Limits.Memory) ] } }

/-- Go method `describeRoleBinding`. -/
def describeRoleBinding (project : Project) (env : Environment) (member : String) : RoleBinding :=
  { ObjectMeta :=
      { Namespace := project.Name ++ "-" ++ env.Name,
        Name := member,
        Labels := projectlabels project "role-binding" },
    RoleRef :=
      { APIGroup := "rbac.authorization.k8s.io",
        Kind := "ClusterRole",
        Name := "edit" },
    Subjects :=
      [ { Kind := "ServiceAccount",
          Name := member,
          Namespace := "users" } ] }

/-- The `types.NamespacedName` literal that `ensureNamespace` passes to `Get`. -/
def ensureNamespaceKey (project : Project) (n : Namespace) : Key :=
  { kind := Kind.Namespace,
    nn := { Name := project.Name ++ "-" ++ n.ObjectMeta.Name, Namespace := "" } }

/-- The `types.NamespacedName` literal that `ensureResourceQuota` passes to `Get`. -/
def ensureResourceQuotaKey (project : Project) (rq : ResourceQuota) : Key :=
  { kind := Kind.ResourceQuota,
    nn := { Name := rq.ObjectMeta.Name,
            Namespace := project.Name ++ "-" ++ rq.ObjectMeta.Name } }

/-- The `types.NamespacedName` literal that `ensureRoleBinding` passes to `Get`. -/
def ensureRoleBindingKey (project : Project) (rb : RoleBinding) : Key :=
  { kind := Kind.RoleBinding,
    nn := { Name := rb.ObjectMeta.Name,
            Namespace := project.Name ++ "-" ++ rb.ObjectMeta.Name } }

/-- The body shared by the three `ensure` methods once the `Get` key is fixed: `Get`; on a
not-found error `Create` and return `(&reconcile.Result{}, err)` if that fails, `(nil, nil)`
otherwise; on any other `Get` error return `(&reconcile.Result{}, err)`; else `(nil, nil)`. -/
def ensureAt {σ : Type} (c : Client σ) (k : Key) (o : Obj) (r : Run σ) :
    (Option Result × Option Err) × Run σ :=
  match clientGet c k r with
  | (some err, r1) =>
    if IsNotFound err then
      match clientCreate c o r1 with
      | (some err2, r2) => ((some Result.zero, some err2), r2)
      | (none, r2) => ((none, none), r2)
    else ((some Result.zero, some err), r1)
  | (none, r1) => ((none, none), r1)

/-- Go method `ensureNamespace`. -/
def ensureNamespace {σ : Type} (c : Client σ) (project : Project) (n : Namespace) (r : Run σ) :
    (Option Result × Option Err) × Run σ :=
  ensureAt c (ensureNamespaceKey project n) (Obj.ns n) r

/-- Go method `ensureResourceQuota`. -/
def ensureResourceQuota {σ : Type} (c : Client σ) (project : Project) (rq : ResourceQuota)
    (r : Run σ) : (Option Result × Option Err) × Run σ :=
  ensureAt c (ensureResourceQuotaKey project rq) (Obj.rq rq) r

/-- Go method `ensureRoleBinding`. -/
def ensureRoleBinding {σ : Type} (c : Client σ) (project : Project) (rb : RoleBinding)
    (r : Run σ) : (Option Result × Option Err) × Run σ :=
  ensureAt c (ensureRoleBindingKey project rb) (Obj.rb rb) r

/-- The inner loop of `Reconcile`, `for _, member := range project.Spec.Members`. The value is
`some (result, err)` when the loop body executed `return *result, err`, `none` when the loop
ran to its end. -/
def reconcileMembers {σ : Type} (c : Client σ) (project : Project) (environment : Environment) :
    List String → Run σ → Option (Result × Option Err) × Run σ
  | [], r => (none, r)
  | member :: rest, r =>
    match ensureRoleBinding c project (describeRoleBinding project environment member) r with
    | ((some result, err), r1) => (some (result, err), r1)
    | ((none, _), r1) => reconcileMembers c project environment rest r1

/-- The body of the outer loop of `Reconcile` for one environment. -/
def reconcileEnvironment {σ : Type} (c : Client σ) (project : Project)
    (environment : Environment) (r : Run σ) : Option (Result × Option Err) × Run σ :=
  match ensureNamespace c project (describeNamespace project environment) r with
  | ((some result, err), r1) => (some (result, err), r1)
  | ((none, _), r1) =>
    match ensureResourceQuota c project (describeResourceQuota project environment) r1 with
    | ((some result, err), r2) => (some (result, err), r2)
    | ((none, _), r2) => reconcileMembers c project environment project.Spec.Members r2

/-- The outer loop of `Reconcile`, `for _, environment := range project.Spec.Environments`. -/
def reconcileEnvironments {σ : Type} (c : Client σ) (project : Project) :
    List Environment → Run σ → Option (Result × Option Err) × Run σ
  | [], r => (none, r)
  | environment :: rest, r =>
    match reconcileEnvironment c project environment r with
    | (some out, r1) => (some out, r1)
    | (none, r1) => reconcileEnvironments c project rest r1

/-- The part of `Reconcile` after the Project has been fetched. -/
def reconcileProject {σ : Type} (c : Client σ) (project : Project) (r : Run σ) :
    (Result × Option Err) × Run σ :=
  match reconcileEnvironments c project project.Spec.Environments r with
  | (some out, r1) => (out, r1)
  | (none, r1) => ((Result.zero, none), r1)

/-- Go method `Reconcile`. -/
def Reconcile {σ : Type} (c : Client σ) (req : Request) (r : Run σ) :
    (Result × Option Err) × Run σ :=
  match clientGetProject c req.NamespacedName r with
  | (.error err, r1) => ((Result.zero, IgnoreNotFound err), r1)
  | (.ok project, r1) => reconcileProject c project r1

/-! ## A cluster: an object store with injected failures -/

/-- A cluster. `objects` is the store of downstream objects, at most one per key. `projects`
holds the Project resources. `faults n call` is a failure injected into the call issued when
`n` calls have been answered before it. With `strict` set, a `Create` on a key that is present
fails with `AlreadyExists`; without it such a `Create` replaces the stored object. -/
structure Cluster where
  projects : List Project
  objects : List Obj
  strict : Bool
  faults : Nat → Call → Option Err
  tick : Nat

/-- The stored object at a key, if any. -/
def lookup (k : Key) (objs : List Obj) : Option Obj :=
  objs.find? (fun o => decide (o.key = k))

/-- Store an object under its own key: replace the object at that key, or append. -/
def store (o : Obj) : List Obj → List Obj
  | [] => [o]
  | x :: xs => if x.key = o.key then o :: xs else x :: store o xs

/-- The schedule that injects no failure. -/
def noFaults : Nat → Call → Option Err := fun _ _ => none

/-- A cluster holding the given Projects and no downstream object, with no injected failure. -/
def Cluster.empty (projects : List Project) (strict : Bool) : Cluster :=
  { projects := projects, objects := [], strict := strict, faults := noFaults, tick := 0 }

/-- The same cluster for a following invocation, with a new failure schedule. -/
def Cluster.next (cl : Cluster) (strict : Bool) (faults : Nat → Call → Option Err) : Cluster :=
  { projects := cl.projects, objects := cl.objects, strict := strict, faults := faults, tick := 0 }

/-- Fetch of a Project (cluster-scoped, found by name). -/
def Cluster.GetProject (nn : NamespacedName) (cl : Cluster) : Except Err Project × Cluster :=
  let cl1 := { cl with tick := cl.tick + 1 }
  match cl.faults cl.tick (Call.getProject nn) with
  | some e => (.error e, cl1)
  | none =>
    match cl.projects.find? (fun p => decide (p.Name = nn.Name)) with
    | some p => (.ok p, cl1)
    | none => (.error Err.NotFound, cl1)

/-- Lookup of a downstream object: not-found exactly when nothing is stored at the key. -/
def Cluster.Get (k : Key) (cl : Cluster) : Except Err Obj × Cluster :=
  let cl1 := { cl with tick := cl.tick + 1 }
  match cl.faults cl.tick (Call.get k) with
  | some e => (.error e, cl1)
  | none =>
    match lookup k cl.objects with
    | some o => (.ok o, cl1)
    | none => (.error Err.NotFound, cl1)

/-- Creation of a downstream object under its own kind, namespace and name. -/
def Cluster.Create (o : Obj) (cl : Cluster) : Option Err × Cluster :=
  let cl1 := { cl with tick := cl.tick + 1 }
  match cl.faults cl.tick (Call.create o) with
  | some e => (some e, cl1)
  | none =>
    if cl.strict && (lookup o.key cl.objects).isSome then (some Err.AlreadyExists, cl1)
    else (none, { cl1 with objects := store o cl.objects })

/-- The client backed by a `Cluster`. -/
def clusterClient : Client Cluster :=
  { GetProject := Cluster.GetProject, Get := Cluster.Get, Create := Cluster.Create }

/-- The `Create` calls of a call log, in order. -/
def creates (calls : List Call) : List Obj :=
  calls.filterMap (fun c => match c with
    | .create o => some o
    | _ => none)

/-- The `Get` calls for downstream objects of a call log, in order. -/
def gets (calls : List Call) : List Key :=
  calls.filterMap (fun c => match c with
    | .get k => some k
    | _ => none)

/-- The request for a Project: cluster-scoped, so the namespace part is empty. -/
def requestFor (project : Project) : Request :=
  { NamespacedName := { Namespace := "", Name := project.Name } }

/-- One invocation of `Reconcile` for a Project against a cluster, from an empty call log. -/
def reconcileOn (project : Project) (cl : Cluster) : (Result × Option Err) × Run Cluster :=
  Reconcile clusterClient (requestFor project) (Run.start cl)

/-- The objects a Project asks for in one environment, in traversal order: the namespace, the
quota, then one binding per member. -/
def desiredFor (project : Project) (e : Environment) : List Obj :=
  Obj.ns (describeNamespace project e) ::
  Obj.rq (describeResourceQuota project e) ::
  project.Spec.Members.map (fun m => Obj.rb (describeRoleBinding project e m))

/-- The objects a Project asks for, over all its environments in spec order. -/
def desiredObjects (project : Project) : List Obj :=
  project.Spec.Environments.flatMap (desiredFor project)

/-- An object that is in the way of no step taken for environment `e`: its key is none of the
three keys looked up for `e` and none of the keys of the objects desired for `e`. -/
def Clear (project : Project) (e : Environment) (x : Obj) : Prop :=
  x.key ≠ ensureNamespaceKey project (describeNamespace project e) ∧
  x.key ≠ ensureResourceQuotaKey project (describeResourceQuota project e) ∧
  (∀ m ∈ project.Spec.Members,
    x.key ≠ ensureRoleBindingKey project (describeRoleBinding project e m)) ∧
  (∀ y ∈ desiredFor project e, x.key ≠ y.key)

/-- Whether an object is a namespace. -/
def Obj.isNamespace (o : Obj) : Bool := decide (o.kind = Kind.Namespace)

/-- Whether an object is a resource quota. -/
def Obj.isResourceQuota (o : Obj) : Bool := decide (o.kind = Kind.ResourceQuota)

/-- Whether an object is a role binding. -/
def Obj.isRoleBinding (o : Obj) : Bool := decide (o.kind = Kind.RoleBinding)

/-- A quantity from its text. -/
def q (s : String) : Quantity := { text := s }

/-- An environment with the resources of the end-to-end example of the specification. -/
def envNamed (name : String) : Environment :=
  { Name := name,
    Resources :=
      { Requests := { CPU := q "100m", Memory := q "128Mi" },
        Limits := { CPU := q "200m", Memory := q "256Mi" } } }

/-- A Project from its name, members and environment names. -/
def projectOf (name : String) (members : List String) (envs : List String) : Project :=
  { Name := name, Spec := { Members := members, Environments := envs.map envNamed } }

/-! ## Concrete inputs used to evaluate the controller -/

/-- Project "acme" with the single environment "dev" and no member. -/
def acmeDev : Project := projectOf "acme" [] ["dev"]

/-- Project "acme" with the single environment "dev" and the member "alice". -/
def acmeDevAlice : Project := projectOf "acme" ["alice"] ["dev"]

/-- Project "acme" with the single environment "prod" and the member "alice". -/
def acmeProd : Project := projectOf "acme" ["alice"] ["prod"]

/-- Project "p" with the single environment "dev" and the member "a" listed twice. -/
def twiceA : Project := projectOf "p" ["a", "a"] ["dev"]

/-- Project "p" with the environments "p-x", "x" and "y" (pairwise distinct) and no member. -/
def shadowed : Project := projectOf "p" [] ["p-x", "x", "y"]

/-- The end-to-end example of the specification: Project "acme" with members "alice" and "bob"
and the single environment "dev". -/
def acmeExample : Project := projectOf "acme" ["alice", "bob"] ["dev"]

/-- A schedule whose only failure is the `Create` of one given object, with a given error. -/
def failCreateOf (o : Obj) (e : Err) : Nat → Call → Option Err :=
  fun _ call => if call = Call.create o then some e else none

/-- An empty cluster in which the only failing call is the `Create` of the quota of the given
environment, which fails with `Err.Other 1`. -/
def quotaCreateFails (project : Project) (e : Environment) (strict : Bool) : Cluster :=
  (Cluster.empty [project] strict).next strict
    (failCreateOf (Obj.rq (describeResourceQuota project e)) (Err.Other 1))

/-- The cluster left by an invocation. -/
def after (out : (Result × Option Err) × Run Cluster) : Cluster := out.2.st

/-! ## Outcomes of one existence check -/

/-- The error of the `Get` at key `k` in cluster state `s`, `none` when the `Get` succeeds. -/
def getErr {σ : Type} (c : Client σ) (k : Key) (s : σ) : Option Err :=
  match (c.Get k s).1 with
  | .ok _ => none
  | .error e => some e

/-- The error of the `Create` of `o` issued right after the `Get` at `k`, `none` when it
succeeds. -/
def createErr {σ : Type} (c : Client σ) (k : Key) (o : Obj) (s : σ) : Option Err :=
  (c.Create o (c.Get k s).2).1

/-- Whether the `Get` at key `k` fails with a not-found error. -/
def lookupNotFound {σ : Type} (c : Client σ) (k : Key) (s : σ) : Bool :=
  match getErr c k s with
  | some e => IsNotFound e
  | none => false

/-- An `ensure` method signals failure: a non-nil result together with a non-nil error. -/
def signalsFailure (out : Option Result × Option Err) : Bool :=
  out.1.isSome && out.2.isSome

/-- The failure rule of an existence check at key `k` for object `o`, for the value `out` it
returns: it signals failure exactly when the lookup fails with an error that is not not-found,
or the lookup fails with not-found and the create fails; the error is then that of the failing
call; otherwise the value is `(nil, nil)`. -/
def EnsureFailsIff {σ : Type} (c : Client σ) (k : Key) (o : Obj) (s : σ)
    (out : Option Result × Option Err) : Prop :=
  (signalsFailure out = true ↔
    ((∃ e, getErr c k s = some e ∧ IsNotFound e = false) ∨
     (∃ e e2, getErr c k s = some e ∧ IsNotFound e = true ∧ createErr c k o s = some e2))) ∧
  (∀ e, getErr c k s = some e → IsNotFound e = false → out = (some Result.zero, some e)) ∧
  (∀ e e2, getErr c k s = some e → IsNotFound e = true → createErr c k o s = some e2 →
    out = (some Result.zero, some e2)) ∧
  (signalsFailure out = false → out = (none, none))

/-- The effect rule of an existence check at key `k` for object `o`, from run state `r` to run
state `r2`: after the `Get`, one `Create` of `o` is issued when the lookup returned not-found
and no call otherwise; the cluster is then as that last call left it. -/
def CreatesOnlyWhenAbsent {σ : Type} (c : Client σ) (k : Key) (o : Obj) (r r2 : Run σ) : Prop :=
  r2.calls = r.calls ++ Call.get k :: (if lookupNotFound c k r.st then [Call.create o] else []) ∧
  creates r2.calls = creates r.calls ++ (if lookupNotFound c k r.st then [o] else []) ∧
  r2.st = (if lookupNotFound c k r.st then (c.Create o (c.Get k r.st).2).2 else (c.Get k r.st).2)

/-! ## Further clients and inputs -/

/-- A client whose fetch returns the given Project, whose every lookup returns not-found and
whose every create succeeds; the state counts the calls. -/
def blindClient (project : Project) : Client Nat :=
  { GetProject := fun _ s => (Except.ok project, s + 1),
    Get := fun _ s => (Except.error Err.NotFound, s + 1),
    Create := fun _ s => (none, s + 1) }

/-- A schedule whose only failure is that of the fetch of the Project, with a given error. -/
def failFetch (e : Err) : Nat → Call → Option Err :=
  fun _ call => match call with
    | .getProject _ => some e
    | _ => none

/-- Project "acme" with the environment "dev" listed twice and no member. -/
def twiceDev : Project := projectOf "acme" [] ["dev", "dev"]

/-! ## Invariants of a run against a cluster -/

/-- A run that started at `r0` has only added objects at keys that were absent: the cluster
still refuses a `Create` on a present key, its store is the store of `r0` followed by objects
that were passed to `Create` and whose keys held nothing in `r0`. -/
def Grows (r0 r : Run Cluster) : Prop :=
  r.st.strict = true ∧
  ∃ added, r.st.objects = r0.st.objects ++ added ∧
    ∀ x ∈ added, x ∈ creates r.calls ∧ lookup x.key r0.st.objects = none

/-- The key at which `ensureResourceQuota` looks up the quota of any environment of a Project:
namespace `project.Name + "-resource-quota"`, name "resource-quota". -/
def quotaLookupKey (project : Project) : Key :=
  { kind := Kind.ResourceQuota,
    nn := { Namespace := project.Name ++ "-resource-quota", Name := "resource-quota" } }

/-- A run in which the quota lookups of a Project hit: the store holds an object at
`quotaLookupKey`, no injected `Get` failure is a not-found error, and no quota has been passed
to `Create`. -/
def QuotaShielded (project : Project) (r : Run Cluster) : Prop :=
  (lookup (quotaLookupKey project) r.st.objects).isSome = true ∧
  (∀ n k, r.st.faults n (Call.get k) ≠ some Err.NotFound) ∧
  ∀ o ∈ creates r.calls, o.kind ≠ Kind.ResourceQuota

/-- A cluster holding the Project "acme" of the end-to-end example and one quota, in namespace
"acme-resource-quota". -/
def shielded : Cluster :=
  { projects := [acmeExample],
    objects := [Obj.rq (describeResourceQuota acmeExample (envNamed "resource-quota"))],
    strict := true, faults := noFaults, tick := 0 }

/-- A cluster holding the Project "acme" with environment "dev" and a quota in "acme-dev" whose
limits differ from the ones the Project asks for. -/
def drifted : Cluster :=
  { projects := [acmeDev],
    objects := [Obj.rq { ObjectMeta := { Name := "resource-quota", Namespace := "acme-dev",
                                         Labels := [] },
                         Spec := { Hard := [("limits.cpu", q "1")] } }],
    strict := true, faults := noFaults, tick := 0 }

/-! ## Facts about names -/

theorem append_right_cancel_str (a b c : String) (h : a ++ b = a ++ c) : b = c := by
  apply String.ext
  have h2 := congrArg String.data h
  simp only [String.data_append] at h2
  exact List.append_cancel_left h2

theorem dash_append_ne_self (a b : String) : a ++ "-" ++ b ≠ b := by
  intro h
  have h2 := congrArg String.length h
  simp only [String.length_append] at h2
  have h3 : ("-" : String).length = 1 := by decide
  omega

/-! ## The describers -/

/-- C8. Downstream identities: the namespace is named `project.Name + "-" + env.Name`, the
quota is named "resource-quota" and lives in that namespace, the binding is named after the
member and lives in that namespace; for Project "acme", environment "prod" and member "alice"
these are "acme-prod", "resource-quota" in "acme-prod" and "alice" in "acme-prod". -/
theorem C8_downstream_identities :
    (∀ (project : Project) (env : Environment) (member : String),
      (describeNamespace project env).ObjectMeta.Name = project.Name ++ "-" ++ env.Name ∧
      (describeResourceQuota project env).ObjectMeta.Name = "resource-quota" ∧
      (describeResourceQuota project env).ObjectMeta.Namespace
        = (describeNamespace project env).ObjectMeta.Name ∧
      (describeRoleBinding project env member).ObjectMeta.Name = member ∧
      (describeRoleBinding project env member).ObjectMeta.Namespace
        = (describeNamespace project env).ObjectMeta.Name) ∧
    (describeNamespace acmeProd (envNamed "prod")).ObjectMeta.Name = "acme-prod" ∧
    (describeResourceQuota acmeProd (envNamed "prod")).ObjectMeta.Name = "resource-quota" ∧
    (describeResourceQuota acmeProd (envNamed "prod")).ObjectMeta.Namespace = "acme-prod" ∧
    (describeRoleBinding acmeProd (envNamed "prod") "alice").ObjectMeta.Name = "alice" ∧
    (describeRoleBinding acmeProd (envNamed "prod") "alice").ObjectMeta.Namespace
      = "acme-prod" := by
  refine ⟨fun project env member => ⟨rfl, rfl, rfl, rfl, rfl⟩, ?_, ?_, ?_, ?_, ?_⟩ <;> decide

/-- C9. Quota pass-through: the hard-limit map of `describeResourceQuota` has exactly the four
keys "requests.cpu", "requests.memory", "limits.cpu", "limits.memory", each once, and the value
at each key is the corresponding field of `env.Resources`, unmodified. -/
theorem C9_quota_pass_through (project : Project) (env : Environment) :
    (describeResourceQuota project env).Spec.Hard.map Prod.fst
      = ["requests.cpu", "requests.memory", "limits.cpu", "limits.memory"] ∧
    ((describeResourceQuota project env).Spec.Hard.map Prod.fst).Nodup ∧
    List.lookup "requests.cpu" (describeResourceQuota project env).Spec.Hard
      = some env.Resources.Requests.CPU ∧
    List.lookup "requests.memory" (describeResourceQuota project env).Spec.Hard
      = some env.Resources.Requests.Memory ∧
    List.lookup "limits.cpu" (describeResourceQuota project env).Spec.Hard
      = some env.Resources.Limits.CPU ∧
    List.lookup "limits.memory" (describeResourceQuota project env).Spec.Hard
      = some env.Resources.Limits.Memory := by
  refine ⟨rfl, ?_, rfl, rfl, rfl, rfl⟩
  show (["requests.cpu", "requests.memory", "limits.cpu", "limits.memory"] : List String).Nodup
  decide

/-- C10. Binding shape: `describeRoleBinding` references the role of kind "ClusterRole" named
"edit" and has exactly one subject, of kind "ServiceAccount", named after the member, in
namespace "users"; the role reference and the subjects are the same for every Project and
Environment. -/
theorem C10_binding_shape (project : Project) (env : Environment) (member : String) :
    (describeRoleBinding project env member).RoleRef.Kind = "ClusterRole" ∧
    (describeRoleBinding project env member).RoleRef.Name = "edit" ∧
    (describeRoleBinding project env member).Subjects
      = [{ Kind := "ServiceAccount", Name := member, Namespace := "users" }] ∧
    (∀ (project2 : Project) (env2 : Environment),
      (describeRoleBinding project2 env2 member).RoleRef
        = (describeRoleBinding project env member).RoleRef ∧
      (describeRoleBinding project2 env2 member).Subjects
        = (describeRoleBinding project env member).Subjects) :=
  ⟨rfl, rfl, rfl, fun _ _ => ⟨rfl, rfl⟩⟩

/-! ## The keys of the existence checks -/

theorem ensureAt_calls {σ : Type} (c : Client σ) (k : Key) (o : Obj) (r : Run σ) :
    ∃ rest, (ensureAt c k o r).2.calls = r.calls ++ Call.get k :: rest := by
  unfold ensureAt
  cases hg : (c.Get k r.st).1 with
  | ok v =>
    refine ⟨[], ?_⟩
    simp [clientGet, hg]
  | error e =>
    cases hnf : IsNotFound e with
    | false =>
      refine ⟨[], ?_⟩
      simp [clientGet, hg, hnf]
    | true =>
      cases hc : (c.Create o (c.Get k r.st).2).1 with
      | none =>
        refine ⟨[Call.create o], ?_⟩
        simp [clientGet, clientCreate, hg, hnf, hc]
      | some e2 =>
        refine ⟨[Call.create o], ?_⟩
        simp [clientGet, clientCreate, hg, hnf, hc]

/-- C3, as the code runs. The first call of `ensureNamespace` on `describeNamespace project env`
is a `Get` at the name `project.Name + "-" + (project.Name + "-" + env.Name)`, which is never
the name of the desired namespace, `project.Name + "-" + env.Name`; for Project "acme" and
environment "prod" the check is at "acme-acme-prod" while the namespace is "acme-prod". -/
theorem C3_namespace_lookup_key_is_not_own_key :
    (∀ (σ : Type) (c : Client σ) (project : Project) (env : Environment) (r : Run σ),
      (∃ rest, (ensureNamespace c project (describeNamespace project env) r).2.calls
        = r.calls ++
          Call.get { kind := Kind.Namespace,
                     nn := { Namespace := "",
                             Name := project.Name ++ "-" ++ (project.Name ++ "-" ++ env.Name) } }
            :: rest) ∧
      ensureNamespaceKey project (describeNamespace project env)
        ≠ (Obj.ns (describeNamespace project env)).key) ∧
    ensureNamespaceKey acmeProd (describeNamespace acmeProd (envNamed "prod"))
      = { kind := Kind.Namespace, nn := { Namespace := "", Name := "acme-acme-prod" } } ∧
    (Obj.ns (describeNamespace acmeProd (envNamed "prod"))).key
      = { kind := Kind.Namespace, nn := { Namespace := "", Name := "acme-prod" } } := by
  refine ⟨fun σ c project env r => ⟨?_, ?_⟩, by decide, by decide⟩
  · exact ensureAt_calls c _ _ r
  · intro h
    have h2 : project.Name ++ "-" ++ (project.Name ++ "-" ++ env.Name)
        = project.Name ++ "-" ++ env.Name := congrArg (fun k => k.nn.Name) h
    exact dash_append_ne_self project.Name env.Name (append_right_cancel_str _ _ _ h2)

/-- C4, as the code runs. The existence check of `ensureResourceQuota` is at namespace
`project.Name + "-resource-quota"`, that of `ensureRoleBinding` at namespace
`project.Name + "-" + member`; either is the desired object's own key only when the environment
is named "resource-quota", respectively named like the member. For Project "acme", environment
"prod" and member "alice" the checks are in "acme-resource-quota" and "acme-alice", the objects
in "acme-prod". -/
theorem C4_quota_and_binding_lookup_keys :
    (∀ (project : Project) (env : Environment) (member : String),
      ensureResourceQuotaKey project (describeResourceQuota project env)
        = { kind := Kind.ResourceQuota,
            nn := { Namespace := project.Name ++ "-" ++ "resource-quota",
                    Name := "resource-quota" } } ∧
      ensureRoleBindingKey project (describeRoleBinding project env member)
        = { kind := Kind.RoleBinding,
            nn := { Namespace := project.Name ++ "-" ++ member, Name := member } } ∧
      (ensureResourceQuotaKey project (describeResourceQuota project env)
        = (Obj.rq (describeResourceQuota project env)).key ↔ env.Name = "resource-quota") ∧
      (ensureRoleBindingKey project (describeRoleBinding project env member)
        = (Obj.rb (describeRoleBinding project env member)).key ↔ env.Name = member)) ∧
    ensureResourceQuotaKey acmeProd (describeResourceQuota acmeProd (envNamed "prod"))
      = { kind := Kind.ResourceQuota,
          nn := { Namespace := "acme-resource-quota", Name := "resource-quota" } } ∧
    (Obj.rq (describeResourceQuota acmeProd (envNamed "prod"))).key
      = { kind := Kind.ResourceQuota,
          nn := { Namespace := "acme-prod", Name := "resource-quota" } } ∧
    ensureRoleBindingKey acmeProd (describeRoleBinding acmeProd (envNamed "prod") "alice")
      = { kind := Kind.RoleBinding, nn := { Namespace := "acme-alice", Name := "alice" } } ∧
    (Obj.rb (describeRoleBinding acmeProd (envNamed "prod") "alice")).key
      = { kind := Kind.RoleBinding, nn := { Namespace := "acme-prod", Name := "alice" } } := by
  refine ⟨fun project env member => ⟨rfl, rfl, ⟨fun h => ?_, fun h => ?_⟩,
    ⟨fun h => ?_, fun h => ?_⟩⟩, by decide, by decide, by decide, by decide⟩
  · have h2 : project.Name ++ "-" ++ "resource-quota" = project.Name ++ "-" ++ env.Name :=
      congrArg (fun k => k.nn.Namespace) h
    exact (append_right_cancel_str _ _ _ h2).symm
  · simp [ensureResourceQuotaKey, describeResourceQuota, Obj.key, Obj.kind, Obj.meta, h]
  · have h2 : project.Name ++ "-" ++ member = project.Name ++ "-" ++ env.Name :=
      congrArg (fun k => k.nn.Namespace) h
    exact (append_right_cancel_str _ _ _ h2).symm
  · simp [ensureRoleBindingKey, describeRoleBinding, Obj.key, Obj.kind, Obj.meta, h]

/-! ## The fetch of the Project -/

/-- C7. Deleted-project tolerance: when the fetch of the Project fails with a not-found error,
`Reconcile` returns the empty result with a nil error, the fetch is the only call it issues
(no further get, no create), and the cluster is left as the fetch left it. -/
theorem C7_deleted_project_tolerance {σ : Type} (c : Client σ) (req : Request) (r : Run σ)
    (err : Err) (hfetch : (c.GetProject req.NamespacedName r.st).1 = Except.error err)
    (hnf : IsNotFound err = true) :
    (Reconcile c req r).1 = (Result.zero, none) ∧
    (Reconcile c req r).2.calls = r.calls ++ [Call.getProject req.NamespacedName] ∧
    (Reconcile c req r).2.st = (c.GetProject req.NamespacedName r.st).2 := by
  simp [Reconcile, clientGetProject, hfetch, IgnoreNotFound, hnf]

theorem C7_deleted_project_tolerance_witness :
    (Reconcile clusterClient (requestFor acmeDev) (Run.start (Cluster.empty [] true))).1
        = (Result.zero, none) ∧
    (Reconcile clusterClient (requestFor acmeDev) (Run.start (Cluster.empty [] true))).2.calls
        = (Run.start (Cluster.empty [] true)).calls
          ++ [Call.getProject (requestFor acmeDev).NamespacedName] ∧
    (Reconcile clusterClient (requestFor acmeDev) (Run.start (Cluster.empty [] true))).2.st
        = (clusterClient.GetProject (requestFor acmeDev).NamespacedName
            (Run.start (Cluster.empty [] true)).st).2 :=
  C7_deleted_project_tolerance clusterClient (requestFor acmeDev)
    (Run.start (Cluster.empty [] true)) Err.NotFound (by rfl) (by rfl)


/-! ## Runs in which every lookup misses and every created key is new -/

theorem lookup_eq_none_iff (k : Key) (objs : List Obj) :
    lookup k objs = none ↔ ∀ x ∈ objs, x.key ≠ k := by
  simp [lookup, List.find?_eq_none]

theorem store_of_absent (o : Obj) (objs : List Obj) (h : ∀ x ∈ objs, x.key ≠ o.key) :
    store o objs = objs ++ [o] := by
  induction objs with
  | nil => rfl
  | cons x xs ih =>
    have hx : x.key ≠ o.key := h x (List.mem_cons_self _ _)
    have hxs : ∀ y ∈ xs, y.key ≠ o.key := fun y hy => h y (List.mem_cons_of_mem _ hy)
    simp [store, hx, ih hxs]

theorem ensureAt_fresh (P : List Project) (objs : List Obj) (s : Bool) (t : Nat)
    (calls : List Call) (k : Key) (o : Obj)
    (hk : ∀ x ∈ objs, x.key ≠ k) (ho : ∀ x ∈ objs, x.key ≠ o.key) :
    ensureAt clusterClient k o
        { st := { projects := P, objects := objs, strict := s, faults := noFaults, tick := t },
          calls := calls }
      = ((none, none),
         { st := { projects := P, objects := objs ++ [o], strict := s, faults := noFaults,
                   tick := t + 2 },
           calls := calls ++ [Call.get k, Call.create o] }) := by
  have h1 : lookup k objs = none := (lookup_eq_none_iff k objs).2 hk
  have h2 : lookup o.key objs = none := (lookup_eq_none_iff o.key objs).2 ho
  simp [ensureAt, clientGet, clientCreate, clusterClient, Cluster.Get, Cluster.Create, noFaults,
    h1, h2, IsNotFound, store_of_absent o objs ho]

theorem reconcileMembers_fresh (project : Project) (e : Environment) (P : List Project)
    (s : Bool) (ms : List String) :
    ∀ (objs : List Obj) (t : Nat) (calls : List Call),
      ms.Nodup →
      (∀ x ∈ objs, ∀ m ∈ ms,
        x.key ≠ ensureRoleBindingKey project (describeRoleBinding project e m)) →
      (∀ x ∈ objs, ∀ m ∈ ms, x.key ≠ (Obj.rb (describeRoleBinding project e m)).key) →
      ∃ t2 calls2,
        reconcileMembers clusterClient project e ms
            { st := { projects := P, objects := objs, strict := s, faults := noFaults,
                      tick := t },
              calls := calls }
          = (none,
             { st := { projects := P,
                       objects := objs ++ ms.map (fun m => Obj.rb (describeRoleBinding project e m)),
                       strict := s, faults := noFaults, tick := t2 },
               calls := calls2 }) := by
  induction ms with
  | nil =>
    intro objs t calls _ _ _
    exact ⟨t, calls, by simp [reconcileMembers]⟩
  | cons m rest ih =>
    intro objs t calls hnd hL hK
    have hm : m ∉ rest := (List.nodup_cons.1 hnd).1
    have hrest : rest.Nodup := (List.nodup_cons.1 hnd).2
    have step := ensureAt_fresh P objs s t calls
      (ensureRoleBindingKey project (describeRoleBinding project e m))
      (Obj.rb (describeRoleBinding project e m))
      (fun x hx => hL x hx m (List.mem_cons_self _ _))
      (fun x hx => hK x hx m (List.mem_cons_self _ _))
    have hL2 : ∀ x ∈ objs ++ [Obj.rb (describeRoleBinding project e m)], ∀ m2 ∈ rest,
        x.key ≠ ensureRoleBindingKey project (describeRoleBinding project e m2) := by
      intro x hx m2 hm2
      rcases List.mem_append.1 hx with hx | hx
      · exact hL x hx m2 (List.mem_cons_of_mem _ hm2)
      · rw [List.mem_singleton.1 hx]
        intro h
        have h2 : m = m2 := congrArg (fun k => k.nn.Name) h
        exact hm (h2 ▸ hm2)
    have hK2 : ∀ x ∈ objs ++ [Obj.rb (describeRoleBinding project e m)], ∀ m2 ∈ rest,
        x.key ≠ (Obj.rb (describeRoleBinding project e m2)).key := by
      intro x hx m2 hm2
      rcases List.mem_append.1 hx with hx | hx
      · exact hK x hx m2 (List.mem_cons_of_mem _ hm2)
      · rw [List.mem_singleton.1 hx]
        intro h
        have h2 : m = m2 := congrArg (fun k => k.nn.Name) h
        exact hm (h2 ▸ hm2)
    obtain ⟨t2, calls2, h⟩ := ih (objs ++ [Obj.rb (describeRoleBinding project e m)]) (t + 2)
      (calls ++ [Call.get (ensureRoleBindingKey project (describeRoleBinding project e m)),
                 Call.create (Obj.rb (describeRoleBinding project e m))]) hrest hL2 hK2
    refine ⟨t2, calls2, ?_⟩
    simp only [reconcileMembers, ensureRoleBinding, step, h, List.map_cons, List.append_assoc,
      List.singleton_append]


theorem dash_append_inj (p a b : String) : p ++ "-" ++ a = p ++ "-" ++ b ↔ a = b :=
  ⟨append_right_cancel_str _ _ _, fun h => by rw [h]⟩

theorem desiredFor_clear (project : Project) (e e2 : Environment)
    (hne : e.Name ≠ e2.Name) (hns : e.Name ≠ project.Name ++ "-" ++ e2.Name)
    (hrq : e.Name ≠ "resource-quota") (hrb : ∀ m ∈ project.Spec.Members, e.Name ≠ m) :
    ∀ y ∈ desiredFor project e, Clear project e2 y := by
  intro y hy
  simp only [desiredFor, List.mem_cons, List.mem_map] at hy
  rcases hy with rfl | rfl | ⟨m0, hm0, rfl⟩
  · simp [Clear, desiredFor, Obj.key, Obj.kind, Obj.meta, ensureNamespaceKey,
      ensureResourceQuotaKey, ensureRoleBindingKey, describeNamespace, describeResourceQuota,
      describeRoleBinding, dash_append_inj]
    exact ⟨hns, hne⟩
  · simp [Clear, desiredFor, Obj.key, Obj.kind, Obj.meta, ensureNamespaceKey,
      ensureResourceQuotaKey, ensureRoleBindingKey, describeNamespace, describeResourceQuota,
      describeRoleBinding, dash_append_inj]
    exact ⟨hrq, hne⟩
  · simp [Clear, desiredFor, Obj.key, Obj.kind, Obj.meta, ensureNamespaceKey,
      ensureResourceQuotaKey, ensureRoleBindingKey, describeNamespace, describeResourceQuota,
      describeRoleBinding, dash_append_inj]
    exact ⟨fun m hm h _ => hrb m hm h, fun _ _ h _ => hne h⟩


theorem reconcileEnvironment_fresh (project : Project) (e : Environment) (P : List Project)
    (s : Bool) (objs : List Obj) (t : Nat) (calls : List Call)
    (hmem : project.Spec.Members.Nodup) (hclear : ∀ x ∈ objs, Clear project e x) :
    ∃ t2 calls2,
      reconcileEnvironment clusterClient project e
          { st := { projects := P, objects := objs, strict := s, faults := noFaults, tick := t },
            calls := calls }
        = (none,
           { st := { projects := P, objects := objs ++ desiredFor project e, strict := s,
                     faults := noFaults, tick := t2 },
             calls := calls2 }) := by
  have step1 := ensureAt_fresh P objs s t calls
    (ensureNamespaceKey project (describeNamespace project e))
    (Obj.ns (describeNamespace project e))
    (fun x hx => (hclear x hx).1)
    (fun x hx => (hclear x hx).2.2.2 _ (by simp [desiredFor]))
  have step2 := ensureAt_fresh P (objs ++ [Obj.ns (describeNamespace project e)]) s (t + 2)
    (calls ++ [Call.get (ensureNamespaceKey project (describeNamespace project e)),
               Call.create (Obj.ns (describeNamespace project e))])
    (ensureResourceQuotaKey project (describeResourceQuota project e))
    (Obj.rq (describeResourceQuota project e))
    (by
      intro x hx
      rcases List.mem_append.1 hx with hx | hx
      · exact (hclear x hx).2.1
      · rw [List.mem_singleton.1 hx]
        intro h
        have h2 : Kind.Namespace = Kind.ResourceQuota := congrArg Key.kind h
        cases h2)
    (by
      intro x hx
      rcases List.mem_append.1 hx with hx | hx
      · exact (hclear x hx).2.2.2 _ (by simp [desiredFor])
      · rw [List.mem_singleton.1 hx]
        intro h
        have h2 : Kind.Namespace = Kind.ResourceQuota := congrArg Key.kind h
        cases h2)
  obtain ⟨t2, calls2, step3⟩ := reconcileMembers_fresh project e P s project.Spec.Members
    (objs ++ [Obj.ns (describeNamespace project e)] ++ [Obj.rq (describeResourceQuota project e)])
    (t + 2 + 2)
    (calls ++ [Call.get (ensureNamespaceKey project (describeNamespace project e)),
               Call.create (Obj.ns (describeNamespace project e))]
      ++ [Call.get (ensureResourceQuotaKey project (describeResourceQuota project e)),
          Call.create (Obj.rq (describeResourceQuota project e))])
    hmem
    (by
      intro x hx m hm
      rcases List.mem_append.1 hx with hx | hx
      · rcases List.mem_append.1 hx with hx | hx
        · exact (hclear x hx).2.2.1 m hm
        · rw [List.mem_singleton.1 hx]
          intro h
          have h2 : Kind.Namespace = Kind.RoleBinding := congrArg Key.kind h
          cases h2
      · rw [List.mem_singleton.1 hx]
        intro h
        have h2 : Kind.ResourceQuota = Kind.RoleBinding := congrArg Key.kind h
        cases h2)
    (by
      intro x hx m hm
      rcases List.mem_append.1 hx with hx | hx
      · rcases List.mem_append.1 hx with hx | hx
        · exact (hclear x hx).2.2.2 _ (List.mem_cons_of_mem _ (List.mem_cons_of_mem _
            (List.mem_map_of_mem (fun m => Obj.rb (describeRoleBinding project e m)) hm)))
        · rw [List.mem_singleton.1 hx]
          intro h
          have h2 : Kind.Namespace = Kind.RoleBinding := congrArg Key.kind h
          cases h2
      · rw [List.mem_singleton.1 hx]
        intro h
        have h2 : Kind.ResourceQuota = Kind.RoleBinding := congrArg Key.kind h
        cases h2)
  refine ⟨t2, calls2, ?_⟩
  simp only [reconcileEnvironment, ensureNamespace, ensureResourceQuota, step1, step2, step3]
  simp only [desiredFor, List.append_assoc, List.singleton_append, List.cons_append,
    List.nil_append]

theorem reconcileEnvironments_fresh (project : Project) (P : List Project) (s : Bool)
    (hmem : project.Spec.Members.Nodup) (es : List Environment) :
    ∀ (objs : List Obj) (t : Nat) (calls : List Call),
      (es.map Environment.Name).Nodup →
      (∀ e ∈ es, ∀ e2 ∈ es, e2.Name ≠ project.Name ++ "-" ++ e.Name) →
      (∀ e ∈ es, e.Name ≠ "resource-quota") →
      (∀ e ∈ es, ∀ m ∈ project.Spec.Members, e.Name ≠ m) →
      (∀ x ∈ objs, ∀ e ∈ es, Clear project e x) →
      ∃ t2 calls2,
        reconcileEnvironments clusterClient project es
            { st := { projects := P, objects := objs, strict := s, faults := noFaults,
                      tick := t },
              calls := calls }
          = (none,
             { st := { projects := P, objects := objs ++ es.flatMap (desiredFor project),
                       strict := s, faults := noFaults, tick := t2 },
               calls := calls2 }) := by
  induction es with
  | nil =>
    intro objs t calls _ _ _ _ _
    exact ⟨t, calls, by simp [reconcileEnvironments]⟩
  | cons e rest ih =>
    intro objs t calls hnd hns hrq hrb hclear
    have hnd2 := List.nodup_cons.1 (by simpa using hnd :
      (e.Name :: rest.map Environment.Name).Nodup)
    obtain ⟨t1, calls1, step⟩ := reconcileEnvironment_fresh project e P s objs t calls hmem
      (fun x hx => hclear x hx e (List.mem_cons_self _ _))
    have hclear2 : ∀ x ∈ objs ++ desiredFor project e, ∀ e2 ∈ rest, Clear project e2 x := by
      intro x hx e2 he2
      rcases List.mem_append.1 hx with hx | hx
      · exact hclear x hx e2 (List.mem_cons_of_mem _ he2)
      · refine desiredFor_clear project e e2 ?_ ?_ ?_ ?_ x hx
        · intro h
          exact hnd2.1 (h ▸ List.mem_map_of_mem Environment.Name he2)
        · exact hns e2 (List.mem_cons_of_mem _ he2) e (List.mem_cons_self _ _)
        · exact hrq e (List.mem_cons_self _ _)
        · exact hrb e (List.mem_cons_self _ _)
    obtain ⟨t2, calls2, h⟩ := ih (objs ++ desiredFor project e) t1 calls1 hnd2.2
      (fun a ha b hb => hns a (List.mem_cons_of_mem _ ha) b (List.mem_cons_of_mem _ hb))
      (fun a ha => hrq a (List.mem_cons_of_mem _ ha))
      (fun a ha => hrb a (List.mem_cons_of_mem _ ha))
      hclear2
    refine ⟨t2, calls2, ?_⟩
    simp only [reconcileEnvironments, step, h, List.flatMap_cons, List.append_assoc]


theorem countP_bindings_ns (project : Project) (e : Environment) (ms : List String) :
    List.countP Obj.isNamespace (ms.map (fun m => Obj.rb (describeRoleBinding project e m))) = 0
    ∧ List.countP Obj.isResourceQuota
        (ms.map (fun m => Obj.rb (describeRoleBinding project e m))) = 0
    ∧ List.countP Obj.isRoleBinding
        (ms.map (fun m => Obj.rb (describeRoleBinding project e m))) = ms.length := by
  induction ms with
  | nil => simp
  | cons m rest ih =>
    obtain ⟨h1, h2, h3⟩ := ih
    simp [List.countP_cons, h1, h2, h3, Obj.isNamespace, Obj.isResourceQuota, Obj.isRoleBinding,
      Obj.kind]

theorem desired_counts (project : Project) (es : List Environment) :
    List.countP Obj.isNamespace (es.flatMap (desiredFor project)) = es.length
    ∧ List.countP Obj.isResourceQuota (es.flatMap (desiredFor project)) = es.length
    ∧ List.countP Obj.isRoleBinding (es.flatMap (desiredFor project))
        = es.length * project.Spec.Members.length := by
  induction es with
  | nil => simp
  | cons e rest ih =>
    obtain ⟨h1, h2, h3⟩ := ih
    obtain ⟨b1, b2, b3⟩ := countP_bindings_ns project e project.Spec.Members
    simp only [List.flatMap_cons, List.countP_append, h1, h2, h3, desiredFor, List.countP_cons,
      b1, b2, b3, List.length_cons]
    simp [Obj.isNamespace, Obj.isResourceQuota, Obj.isRoleBinding, Obj.kind]
    constructor
    · omega
    · ring


/-! ## Object count -/

theorem fetch_own_project (project : Project) (strict : Bool) :
    clientGetProject clusterClient (requestFor project).NamespacedName
        (Run.start (Cluster.empty [project] strict))
      = (Except.ok project,
         { st := { projects := [project], objects := [], strict := strict, faults := noFaults,
                   tick := 1 },
           calls := [Call.getProject (requestFor project).NamespacedName] }) := by
  simp [clientGetProject, clusterClient, Cluster.GetProject, Cluster.empty, noFaults, requestFor,
    Run.start]

/-- C2, as stated, fails: Project "p" with the single environment "dev" and the member "a"
listed twice (E = 1, M = 2) is reconciled with success against an empty cluster in which no
create fails, and the store then holds one role binding, not E*M = 2. -/
theorem C2_counterexample_repeated_member :
    (twiceA.Spec.Environments.map Environment.Name).Nodup ∧
    (reconcileOn twiceA (Cluster.empty [twiceA] false)).1 = (Result.zero, none) ∧
    ¬ (List.countP Obj.isRoleBinding
        (after (reconcileOn twiceA (Cluster.empty [twiceA] false))).objects
          = twiceA.Spec.Environments.length * twiceA.Spec.Members.length) := by
  decide

/-- C2, amended. For a Project with E environments of pairwise distinct names and M pairwise
distinct members, in which no environment is named "resource-quota", named like a member, or
named `project.Name + "-" +` the name of an environment, `Reconcile` against an empty cluster
with no injected failure (strict or not) returns success and leaves the store holding exactly
the objects described for every environment and every (environment, member) pair: E namespaces,
E resource quotas and E*M role bindings. -/
theorem C2_object_count_amended (project : Project) (strict : Bool)
    (henv : (project.Spec.Environments.map Environment.Name).Nodup)
    (hmem : project.Spec.Members.Nodup)
    (hns : ∀ e ∈ project.Spec.Environments, ∀ e2 ∈ project.Spec.Environments,
      e2.Name ≠ project.Name ++ "-" ++ e.Name)
    (hrq : ∀ e ∈ project.Spec.Environments, e.Name ≠ "resource-quota")
    (hrb : ∀ e ∈ project.Spec.Environments, ∀ m ∈ project.Spec.Members, e.Name ≠ m) :
    (reconcileOn project (Cluster.empty [project] strict)).1 = (Result.zero, none) ∧
    (after (reconcileOn project (Cluster.empty [project] strict))).objects
      = desiredObjects project ∧
    List.countP Obj.isNamespace
      (after (reconcileOn project (Cluster.empty [project] strict))).objects
      = project.Spec.Environments.length ∧
    List.countP Obj.isResourceQuota
      (after (reconcileOn project (Cluster.empty [project] strict))).objects
      = project.Spec.Environments.length ∧
    List.countP Obj.isRoleBinding
      (after (reconcileOn project (Cluster.empty [project] strict))).objects
      = project.Spec.Environments.length * project.Spec.Members.length := by
  obtain ⟨t2, calls2, h⟩ := reconcileEnvironments_fresh project [project] strict hmem
    project.Spec.Environments [] 1
    [Call.getProject (requestFor project).NamespacedName] henv hns hrq hrb
    (fun x hx => absurd hx (List.not_mem_nil x))
  have hrun : reconcileOn project (Cluster.empty [project] strict)
      = ((Result.zero, none),
         { st := { projects := [project], objects := desiredObjects project, strict := strict,
                   faults := noFaults, tick := t2 },
           calls := calls2 }) := by
    simp only [List.nil_append] at h
    simp only [reconcileOn, Reconcile, fetch_own_project, reconcileProject, h, desiredObjects]
  obtain ⟨c1, c2, c3⟩ := desired_counts project project.Spec.Environments
  rw [hrun]
  exact ⟨rfl, rfl, c1, c2, c3⟩

theorem C2_object_count_amended_witness :
    (reconcileOn acmeExample (Cluster.empty [acmeExample] true)).1 = (Result.zero, none) ∧
    (after (reconcileOn acmeExample (Cluster.empty [acmeExample] true))).objects
      = desiredObjects acmeExample ∧
    List.countP Obj.isNamespace
      (after (reconcileOn acmeExample (Cluster.empty [acmeExample] true))).objects
      = acmeExample.Spec.Environments.length ∧
    List.countP Obj.isResourceQuota
      (after (reconcileOn acmeExample (Cluster.empty [acmeExample] true))).objects
      = acmeExample.Spec.Environments.length ∧
    List.countP Obj.isRoleBinding
      (after (reconcileOn acmeExample (Cluster.empty [acmeExample] true))).objects
      = acmeExample.Spec.Environments.length * acmeExample.Spec.Members.length :=
  C2_object_count_amended acmeExample true (by decide) (by decide) (by decide) (by decide)
    (by decide)


/-! ## Repeated invocations -/

/-- C1, as the code runs. Project "acme" with environment "dev" is reconciled with success
against an empty cluster. A second `Reconcile` of the unchanged Project looks the namespace up
at "acme-acme-dev" and the quota in "acme-resource-quota", finds neither, and issues a `Create`
for both objects again; on a cluster that refuses a `Create` on a present key it returns the
`AlreadyExists` error. -/
theorem C1_second_reconcile_creates_again :
    (reconcileOn acmeDev (Cluster.empty [acmeDev] false)).1 = (Result.zero, none) ∧
    creates (reconcileOn acmeDev
        ((after (reconcileOn acmeDev (Cluster.empty [acmeDev] false))).next false noFaults)).2.calls
      = [Obj.ns (describeNamespace acmeDev (envNamed "dev")),
         Obj.rq (describeResourceQuota acmeDev (envNamed "dev"))] ∧
    gets (reconcileOn acmeDev
        ((after (reconcileOn acmeDev (Cluster.empty [acmeDev] false))).next false noFaults)).2.calls
      = [{ kind := Kind.Namespace, nn := { Namespace := "", Name := "acme-acme-dev" } },
         { kind := Kind.ResourceQuota,
           nn := { Namespace := "acme-resource-quota", Name := "resource-quota" } }] ∧
    (reconcileOn acmeDev (Cluster.empty [acmeDev] true)).1 = (Result.zero, none) ∧
    (reconcileOn acmeDev
        ((after (reconcileOn acmeDev (Cluster.empty [acmeDev] true))).next true noFaults)).1
      = (Result.zero, some Err.AlreadyExists) := by
  decide

/-- C5, as the code runs. Project "p" has the environments "p-x", "x", "y"; the create of the
quota of "y" (index 2) fails and no other call does. `Reconcile` returns that error, but the
namespace of environment "x" (index 1) is not in the store and was never created: its lookup
at "p-p-x" found the namespace of environment "p-x". -/
theorem C5_earlier_namespace_missing :
    shadowed.Spec.Environments = [envNamed "p-x", envNamed "x", envNamed "y"] ∧
    (reconcileOn shadowed (quotaCreateFails shadowed (envNamed "y") false)).1
      = (Result.zero, some (Err.Other 1)) ∧
    lookup (Obj.ns (describeNamespace shadowed (envNamed "x"))).key
      (after (reconcileOn shadowed (quotaCreateFails shadowed (envNamed "y") false))).objects
      = none ∧
    Obj.ns (describeNamespace shadowed (envNamed "x"))
      ∉ creates (reconcileOn shadowed (quotaCreateFails shadowed (envNamed "y") false)).2.calls ∧
    (after (reconcileOn shadowed (quotaCreateFails shadowed (envNamed "y") false))).objects.map
        Obj.key
      = [{ kind := Kind.Namespace, nn := { Namespace := "", Name := "p-p-x" } },
         { kind := Kind.ResourceQuota, nn := { Namespace := "p-p-x", Name := "resource-quota" } },
         { kind := Kind.ResourceQuota, nn := { Namespace := "p-x", Name := "resource-quota" } },
         { kind := Kind.Namespace, nn := { Namespace := "", Name := "p-y" } }] := by
  decide

/-- C6, as the code runs. Project "acme" has environment "dev" and member "alice". A first
`Reconcile` from an empty cluster aborts because the create of the quota fails; it has created
the namespace "acme-dev". The following `Reconcile`, in which only lookups of absent keys and
creates of present keys fail, looks the namespace up at "acme-acme-dev", issues a `Create` for
the namespace again, and returns the `AlreadyExists` error; nothing missing is created. -/
theorem C6_retry_fails_on_existing_namespace :
    (reconcileOn acmeDevAlice (quotaCreateFails acmeDevAlice (envNamed "dev") true)).1
      = (Result.zero, some (Err.Other 1)) ∧
    (after (reconcileOn acmeDevAlice
        (quotaCreateFails acmeDevAlice (envNamed "dev") true))).objects
      = [Obj.ns (describeNamespace acmeDevAlice (envNamed "dev"))] ∧
    (reconcileOn acmeDevAlice
        ((after (reconcileOn acmeDevAlice
          (quotaCreateFails acmeDevAlice (envNamed "dev") true))).next true noFaults)).1
      = (Result.zero, some Err.AlreadyExists) ∧
    creates (reconcileOn acmeDevAlice
        ((after (reconcileOn acmeDevAlice
          (quotaCreateFails acmeDevAlice (envNamed "dev") true))).next true noFaults)).2.calls
      = [Obj.ns (describeNamespace acmeDevAlice (envNamed "dev"))] ∧
    (after (reconcileOn acmeDevAlice
        ((after (reconcileOn acmeDevAlice
          (quotaCreateFails acmeDevAlice (envNamed "dev") true))).next true noFaults))).objects
      = [Obj.ns (describeNamespace acmeDevAlice (envNamed "dev"))] := by
  decide

/-! ## Ownership labels -/

/-- C11. Ownership labels: `projectlabels` returns a map with exactly three keys, each once,
whose values are the Project's name, the given component and the constant "project-operator";
the labels of `describeNamespace`, `describeResourceQuota` and `describeRoleBinding` are
`projectlabels project c` with c = "namespace", "resource-quota" and "role-binding". -/
theorem C11_ownership_labels (project : Project) (component : String) (env : Environment)
    (member : String) :
    (projectlabels project component).map Prod.fst
      = ["app.kubernetes.io/name", "app.kubernetes.io/component",
         "app.kubernetes.io/managed-by"] ∧
    ((projectlabels project component).map Prod.fst).Nodup ∧
    (projectlabels project component).length = 3 ∧
    List.lookup "app.kubernetes.io/name" (projectlabels project component)
      = some project.Name ∧
    List.lookup "app.kubernetes.io/component" (projectlabels project component)
      = some component ∧
    List.lookup "app.kubernetes.io/managed-by" (projectlabels project component)
      = some "project-operator" ∧
    (describeNamespace project env).ObjectMeta.Labels = projectlabels project "namespace" ∧
    (describeResourceQuota project env).ObjectMeta.Labels
      = projectlabels project "resource-quota" ∧
    (describeRoleBinding project env member).ObjectMeta.Labels
      = projectlabels project "role-binding" := by
  refine ⟨rfl, ?_, rfl, rfl, rfl, rfl, rfl, rfl, rfl⟩
  show (["app.kubernetes.io/name", "app.kubernetes.io/component",
    "app.kubernetes.io/managed-by"] : List String).Nodup
  decide

/-! ## A fatal fetch error -/

/-- C12. Fatal fetch error: when the fetch of the Project fails with an error `e` that is not a
not-found error, `Reconcile` returns exactly `e` as its error, the fetch is the only call it
issues (no get or create for a downstream object), and the cluster is as the fetch left it. -/
theorem C12_fatal_fetch_error {σ : Type} (c : Client σ) (req : Request) (r : Run σ)
    (e : Err) (hfetch : (c.GetProject req.NamespacedName r.st).1 = Except.error e)
    (hnf : IsNotFound e = false) :
    (Reconcile c req r).1 = (Result.zero, some e) ∧
    (Reconcile c req r).2.calls = r.calls ++ [Call.getProject req.NamespacedName] ∧
    (Reconcile c req r).2.st = (c.GetProject req.NamespacedName r.st).2 := by
  simp [Reconcile, clientGetProject, hfetch, IgnoreNotFound, hnf]

theorem C12_fatal_fetch_error_witness :
    (Reconcile clusterClient (requestFor acmeDev)
        (Run.start ((Cluster.empty [acmeDev] true).next true (failFetch (Err.Other 7))))).1
      = (Result.zero, some (Err.Other 7)) ∧
    (Reconcile clusterClient (requestFor acmeDev)
        (Run.start ((Cluster.empty [acmeDev] true).next true (failFetch (Err.Other 7))))).2.calls
      = (Run.start ((Cluster.empty [acmeDev] true).next true (failFetch (Err.Other 7)))).calls
        ++ [Call.getProject (requestFor acmeDev).NamespacedName] ∧
    (Reconcile clusterClient (requestFor acmeDev)
        (Run.start ((Cluster.empty [acmeDev] true).next true (failFetch (Err.Other 7))))).2.st
      = (clusterClient.GetProject (requestFor acmeDev).NamespacedName
          (Run.start ((Cluster.empty [acmeDev] true).next true (failFetch (Err.Other 7)))).st).2 :=
  C12_fatal_fetch_error clusterClient (requestFor acmeDev)
    (Run.start ((Cluster.empty [acmeDev] true).next true (failFetch (Err.Other 7))))
    (Err.Other 7) (by rfl) (by rfl)

/-! ## One existence check -/

theorem ensureAt_fails_iff {σ : Type} (c : Client σ) (k : Key) (o : Obj) (r : Run σ) :
    EnsureFailsIff c k o r.st (ensureAt c k o r).1 := by
  unfold EnsureFailsIff getErr createErr ensureAt clientGet clientCreate
  cases hg : (c.Get k r.st).1 with
  | ok v => simp [signalsFailure, hg]
  | error e =>
    cases hnf : IsNotFound e with
    | false =>
      simp [signalsFailure, hg, hnf]
      intro e1 e2 h1 h2
      rw [← h1, hnf] at h2
      cases h2
    | true =>
      cases hc : (c.Create o (c.Get k r.st).2).1 with
      | none => simp [signalsFailure, hg, hnf, hc]
      | some e2 => simp [signalsFailure, hg, hnf, hc]

/-- C13. Ensure fails iff: each of `ensureNamespace`, `ensureResourceQuota` and
`ensureRoleBinding`, on every desired object, signals failure if and only if its lookup fails
with an error that is not not-found, or its lookup fails with not-found and the create that
follows fails; the error returned is then exactly that of the failing call, and in every other
case the method returns `(nil, nil)`. -/
theorem C13_ensure_fails_iff {σ : Type} (c : Client σ) (project : Project) (n : Namespace)
    (rq : ResourceQuota) (rb : RoleBinding) (r : Run σ) :
    EnsureFailsIff c (ensureNamespaceKey project n) (Obj.ns n) r.st
      (ensureNamespace c project n r).1 ∧
    EnsureFailsIff c (ensureResourceQuotaKey project rq) (Obj.rq rq) r.st
      (ensureResourceQuota c project rq r).1 ∧
    EnsureFailsIff c (ensureRoleBindingKey project rb) (Obj.rb rb) r.st
      (ensureRoleBinding c project rb r).1 :=
  ⟨ensureAt_fails_iff c _ _ r, ensureAt_fails_iff c _ _ r, ensureAt_fails_iff c _ _ r⟩

theorem ensureAt_creates_only_when_absent {σ : Type} (c : Client σ) (k : Key) (o : Obj)
    (r : Run σ) : CreatesOnlyWhenAbsent c k o r (ensureAt c k o r).2 := by
  unfold CreatesOnlyWhenAbsent lookupNotFound getErr ensureAt clientGet clientCreate
  cases hg : (c.Get k r.st).1 with
  | ok v => simp [hg, creates]
  | error e =>
    cases hnf : IsNotFound e with
    | false => simp [hg, hnf, creates]
    | true =>
      cases hc : (c.Create o (c.Get k r.st).2).1 with
      | none => simp [hg, hnf, hc, creates]
      | some e2 => simp [hg, hnf, hc, creates]

theorem cluster_get_objects (k : Key) (cl : Cluster) : (Cluster.Get k cl).2.objects = cl.objects := by
  unfold Cluster.Get
  cases cl.faults cl.tick (Call.get k) with
  | some e => rfl
  | none =>
    cases lookup k cl.objects with
    | some o => rfl
    | none => rfl

theorem ensureAt_cluster_store_unchanged (k : Key) (o : Obj) (r : Run Cluster)
    (h : lookupNotFound clusterClient k r.st = false) :
    (ensureAt clusterClient k o r).2.st.objects = r.st.objects := by
  have h2 := (ensureAt_creates_only_when_absent clusterClient k o r).2.2
  rw [h2, h]
  exact cluster_get_objects k r.st

/-- C14. Create only when absent: each of `ensureNamespace`, `ensureResourceQuota` and
`ensureRoleBinding`, on every desired object, issues a `Create` if and only if its lookup
returned not-found; it is then the single `Create` of the call, and its argument is the desired
object unchanged. When the lookup succeeds or fails with another error no call follows the
`Get`, and a cluster store is left with the objects it had. -/
theorem C14_create_only_when_absent {σ : Type} (c : Client σ) (project : Project)
    (n : Namespace) (rq : ResourceQuota) (rb : RoleBinding) (r : Run σ) :
    CreatesOnlyWhenAbsent c (ensureNamespaceKey project n) (Obj.ns n) r
      (ensureNamespace c project n r).2 ∧
    CreatesOnlyWhenAbsent c (ensureResourceQuotaKey project rq) (Obj.rq rq) r
      (ensureResourceQuota c project rq r).2 ∧
    CreatesOnlyWhenAbsent c (ensureRoleBindingKey project rb) (Obj.rb rb) r
      (ensureRoleBinding c project rb r).2 ∧
    (∀ rc : Run Cluster,
      (lookupNotFound clusterClient (ensureNamespaceKey project n) rc.st = false →
        (ensureNamespace clusterClient project n rc).2.st.objects = rc.st.objects) ∧
      (lookupNotFound clusterClient (ensureResourceQuotaKey project rq) rc.st = false →
        (ensureResourceQuota clusterClient project rq rc).2.st.objects = rc.st.objects) ∧
      (lookupNotFound clusterClient (ensureRoleBindingKey project rb) rc.st = false →
        (ensureRoleBinding clusterClient project rb rc).2.st.objects = rc.st.objects)) :=
  ⟨ensureAt_creates_only_when_absent c _ _ r, ensureAt_creates_only_when_absent c _ _ r,
    ensureAt_creates_only_when_absent c _ _ r,
    fun rc => ⟨ensureAt_cluster_store_unchanged _ _ rc, ensureAt_cluster_store_unchanged _ _ rc,
      ensureAt_cluster_store_unchanged _ _ rc⟩⟩

/-! ## Duplicate environment names -/

/-- C16, as the code runs. Project "acme" lists the environment "dev" twice. Against an empty
cluster that refuses a `Create` on a present key, the second "dev" looks its namespace up at
"acme-acme-dev", does not find the namespace "acme-dev" created for the first, issues a second
`Create` for it, and `Reconcile` returns the `AlreadyExists` error. -/
theorem C16_duplicate_environment_fails :
    twiceDev.Spec.Environments = [envNamed "dev", envNamed "dev"] ∧
    (reconcileOn twiceDev (Cluster.empty [twiceDev] true)).1
      = (Result.zero, some Err.AlreadyExists) ∧
    creates (reconcileOn twiceDev (Cluster.empty [twiceDev] true)).2.calls
      = [Obj.ns (describeNamespace twiceDev (envNamed "dev")),
         Obj.rq (describeResourceQuota twiceDev (envNamed "dev")),
         Obj.ns (describeNamespace twiceDev (envNamed "dev"))] ∧
    gets (reconcileOn twiceDev (Cluster.empty [twiceDev] true)).2.calls
      = [{ kind := Kind.Namespace, nn := { Namespace := "", Name := "acme-acme-dev" } },
         { kind := Kind.ResourceQuota,
           nn := { Namespace := "acme-resource-quota", Name := "resource-quota" } },
         { kind := Kind.Namespace, nn := { Namespace := "", Name := "acme-acme-dev" } }] := by
  decide

/-! ## Namespace names of different Projects -/

/-- C18, as stated, fails: Projects "a" and "a-b" have different names, the environments "b-c"
and "c" have names of 1 to 15 characters, and both namespaces are named "a-b-c". -/
theorem C18_counterexample_shared_namespace_name :
    (projectOf "a" [] []).Name ≠ (projectOf "a-b" [] []).Name ∧
    (1 ≤ (envNamed "b-c").Name.length ∧ (envNamed "b-c").Name.length ≤ 15) ∧
    (1 ≤ (envNamed "c").Name.length ∧ (envNamed "c").Name.length ≤ 15) ∧
    (describeNamespace (projectOf "a" [] []) (envNamed "b-c")).ObjectMeta.Name
      = (describeNamespace (projectOf "a-b" [] []) (envNamed "c")).ObjectMeta.Name := by
  decide

theorem dash_split_left (p1 p2 e1 e2 : List Char) (h1 : '-' ∉ p1) (h2 : '-' ∉ p2)
    (h : p1 ++ '-' :: e1 = p2 ++ '-' :: e2) : p1 = p2 ∧ e1 = e2 := by
  induction p1 generalizing p2 with
  | nil =>
    cases p2 with
    | nil => simpa using h
    | cons c rest =>
      simp at h
      exact absurd (h.1 ▸ List.mem_cons_self _ _) h2
  | cons c rest ih =>
    cases p2 with
    | nil =>
      simp at h
      exact absurd (h.1 ▸ List.mem_cons_self _ _) h1
    | cons c2 rest2 =>
      simp at h
      have := ih rest2 (fun hm => h1 (List.mem_cons_of_mem _ hm))
        (fun hm => h2 (List.mem_cons_of_mem _ hm)) h.2
      exact ⟨by rw [h.1, this.1], this.2⟩

theorem dash_split_right (p1 p2 e1 e2 : List Char) (h1 : '-' ∉ e1) (h2 : '-' ∉ e2)
    (h : p1 ++ '-' :: e1 = p2 ++ '-' :: e2) : p1 = p2 ∧ e1 = e2 := by
  have hr := congrArg List.reverse h
  simp only [List.reverse_append, List.reverse_cons, List.append_assoc,
    List.singleton_append] at hr
  have := dash_split_left e1.reverse e2.reverse p1.reverse p2.reverse
    (by simpa using h1) (by simpa using h2) hr
  exact ⟨List.reverse_injective this.2, List.reverse_injective this.1⟩

theorem namespace_name_data (p : Project) (e : Environment) :
    (describeNamespace p e).ObjectMeta.Name.data = p.Name.data ++ '-' :: e.Name.data := by
  show (p.Name ++ "-" ++ e.Name).data = _
  simp [String.data_append]

/-- C18, amended. For two Projects with different names and two Environments, if neither
Project name contains "-" or neither Environment name contains "-", the namespace name that
`describeNamespace` derives for the first pair differs from the one it derives for the
second. -/
theorem C18_namespace_names_differ_amended (p1 p2 : Project) (e1 e2 : Environment)
    (hne : p1.Name ≠ p2.Name)
    (hdash : ('-' ∉ p1.Name.data ∧ '-' ∉ p2.Name.data) ∨
      ('-' ∉ e1.Name.data ∧ '-' ∉ e2.Name.data)) :
    (describeNamespace p1 e1).ObjectMeta.Name ≠ (describeNamespace p2 e2).ObjectMeta.Name := by
  intro h
  have hd := congrArg String.data h
  rw [namespace_name_data, namespace_name_data] at hd
  rcases hdash with ⟨a, b⟩ | ⟨a, b⟩
  · exact hne (String.ext (dash_split_left _ _ _ _ a b hd).1)
  · exact hne (String.ext (dash_split_right _ _ _ _ a b hd).1)

theorem C18_namespace_names_differ_amended_witness :
    (describeNamespace (projectOf "a" [] []) (envNamed "c")).ObjectMeta.Name
      ≠ (describeNamespace (projectOf "a-b" [] []) (envNamed "c")).ObjectMeta.Name :=
  C18_namespace_names_differ_amended (projectOf "a" [] []) (projectOf "a-b" [] [])
    (envNamed "c") (envNamed "c") (by decide) (Or.inr ⟨by decide, by decide⟩)

/-! ## Traversal order -/

theorem creates_append (a b : List Call) : creates (a ++ b) = creates a ++ creates b := by
  simp [creates, List.filterMap_append]

theorem ensureAt_blind {σ : Type} (c : Client σ)
    (hget : ∀ k s, ∃ e, (c.Get k s).1 = Except.error e ∧ IsNotFound e = true)
    (hcreate : ∀ o s, (c.Create o s).1 = none) (k : Key) (o : Obj) (r : Run σ) :
    (ensureAt c k o r).1 = (none, none) ∧
    creates (ensureAt c k o r).2.calls = creates r.calls ++ [o] := by
  obtain ⟨e, he, hnf⟩ := hget k r.st
  simp [ensureAt, clientGet, clientCreate, he, hnf, hcreate, creates]

theorem reconcileMembers_blind {σ : Type} (c : Client σ)
    (hget : ∀ k s, ∃ e, (c.Get k s).1 = Except.error e ∧ IsNotFound e = true)
    (hcreate : ∀ o s, (c.Create o s).1 = none) (project : Project) (e : Environment)
    (ms : List String) :
    ∀ r : Run σ,
      (reconcileMembers c project e ms r).1 = none ∧
      creates (reconcileMembers c project e ms r).2.calls
        = creates r.calls ++ ms.map (fun m => Obj.rb (describeRoleBinding project e m)) := by
  induction ms with
  | nil => intro r; simp [reconcileMembers]
  | cons m rest ih =>
    intro r
    obtain ⟨h1, h2⟩ := ensureAt_blind c hget hcreate
      (ensureRoleBindingKey project (describeRoleBinding project e m))
      (Obj.rb (describeRoleBinding project e m)) r
    unfold reconcileMembers ensureRoleBinding
    generalize ensureAt c (ensureRoleBindingKey project (describeRoleBinding project e m))
      (Obj.rb (describeRoleBinding project e m)) r = out at h1 h2
    obtain ⟨⟨res, err⟩, r1⟩ := out
    simp only [Prod.mk.injEq] at h1
    obtain ⟨rfl, rfl⟩ := h1
    simp only
    obtain ⟨i1, i2⟩ := ih r1
    refine ⟨i1, ?_⟩
    rw [i2, h2]
    simp

theorem reconcileEnvironment_blind {σ : Type} (c : Client σ)
    (hget : ∀ k s, ∃ e, (c.Get k s).1 = Except.error e ∧ IsNotFound e = true)
    (hcreate : ∀ o s, (c.Create o s).1 = none) (project : Project) (e : Environment)
    (r : Run σ) :
    (reconcileEnvironment c project e r).1 = none ∧
    creates (reconcileEnvironment c project e r).2.calls
      = creates r.calls ++ desiredFor project e := by
  obtain ⟨h1, h2⟩ := ensureAt_blind c hget hcreate
    (ensureNamespaceKey project (describeNamespace project e))
    (Obj.ns (describeNamespace project e)) r
  unfold reconcileEnvironment ensureNamespace
  generalize ensureAt c (ensureNamespaceKey project (describeNamespace project e))
    (Obj.ns (describeNamespace project e)) r = out at h1 h2
  obtain ⟨⟨res, err⟩, r1⟩ := out
  simp only [Prod.mk.injEq] at h1
  obtain ⟨rfl, rfl⟩ := h1
  simp only
  obtain ⟨g1, g2⟩ := ensureAt_blind c hget hcreate
    (ensureResourceQuotaKey project (describeResourceQuota project e))
    (Obj.rq (describeResourceQuota project e)) r1
  unfold ensureResourceQuota
  generalize ensureAt c (ensureResourceQuotaKey project (describeResourceQuota project e))
    (Obj.rq (describeResourceQuota project e)) r1 = out2 at g1 g2
  obtain ⟨⟨res2, err2⟩, r2⟩ := out2
  simp only [Prod.mk.injEq] at g1
  obtain ⟨rfl, rfl⟩ := g1
  simp only
  obtain ⟨i1, i2⟩ := reconcileMembers_blind c hget hcreate project e project.Spec.Members r2
  refine ⟨i1, ?_⟩
  rw [i2, g2, h2]
  simp [desiredFor]

theorem reconcileEnvironments_blind {σ : Type} (c : Client σ)
    (hget : ∀ k s, ∃ e, (c.Get k s).1 = Except.error e ∧ IsNotFound e = true)
    (hcreate : ∀ o s, (c.Create o s).1 = none) (project : Project) (es : List Environment) :
    ∀ r : Run σ,
      (reconcileEnvironments c project es r).1 = none ∧
      creates (reconcileEnvironments c project es r).2.calls
        = creates r.calls ++ es.flatMap (desiredFor project) := by
  induction es with
  | nil => intro r; simp [reconcileEnvironments]
  | cons e rest ih =>
    intro r
    obtain ⟨h1, h2⟩ := reconcileEnvironment_blind c hget hcreate project e r
    unfold reconcileEnvironments
    generalize reconcileEnvironment c project e r = out at h1 h2
    obtain ⟨res, r1⟩ := out
    simp only at h1
    subst h1
    simp only
    obtain ⟨i1, i2⟩ := ih r1
    refine ⟨i1, ?_⟩
    rw [i2, h2]
    simp

/-- C15. Traversal order: when the fetch returns the Project, every lookup returns not-found
and every create succeeds, `Reconcile` returns success and the objects it passes to `Create`
are, in order, for each environment in spec order its namespace, its quota, then the binding of
each member in spec order. With no environment nothing is created; with no member only the
namespace and the quota of each environment are. -/
theorem C15_traversal_order {σ : Type} (c : Client σ) (req : Request) (s : σ)
    (project : Project)
    (hfetch : (c.GetProject req.NamespacedName s).1 = Except.ok project)
    (hget : ∀ k s2, ∃ e, (c.Get k s2).1 = Except.error e ∧ IsNotFound e = true)
    (hcreate : ∀ o s2, (c.Create o s2).1 = none) :
    (Reconcile c req (Run.start s)).1 = (Result.zero, none) ∧
    creates (Reconcile c req (Run.start s)).2.calls
      = project.Spec.Environments.flatMap (fun e =>
          Obj.ns (describeNamespace project e) ::
          Obj.rq (describeResourceQuota project e) ::
          project.Spec.Members.map (fun m => Obj.rb (describeRoleBinding project e m))) ∧
    (project.Spec.Environments = [] → creates (Reconcile c req (Run.start s)).2.calls = []) ∧
    (project.Spec.Members = [] →
      creates (Reconcile c req (Run.start s)).2.calls
        = project.Spec.Environments.flatMap (fun e =>
            [Obj.ns (describeNamespace project e), Obj.rq (describeResourceQuota project e)])) := by
  obtain ⟨h1, h2⟩ := reconcileEnvironments_blind c hget hcreate project
    project.Spec.Environments
    { st := (c.GetProject req.NamespacedName s).2,
      calls := [Call.getProject req.NamespacedName] }
  have hrun : (Reconcile c req (Run.start s)).1 = (Result.zero, none) ∧
      creates (Reconcile c req (Run.start s)).2.calls
        = project.Spec.Environments.flatMap (desiredFor project) := by
    unfold Reconcile clientGetProject reconcileProject
    simp only [Run.start, hfetch, List.nil_append]
    generalize reconcileEnvironments c project project.Spec.Environments
      { st := (c.GetProject req.NamespacedName s).2,
        calls := [Call.getProject req.NamespacedName] } = out at h1 h2
    obtain ⟨res, r1⟩ := out
    simp only at h1
    subst h1
    simp only
    refine ⟨by trivial, ?_⟩
    rw [h2]
    simp [creates]
  refine ⟨hrun.1, ?_, ?_, ?_⟩
  · rw [hrun.2]; rfl
  · intro h
    rw [hrun.2, h]; rfl
  · intro h
    have hfun : desiredFor project = fun e =>
        [Obj.ns (describeNamespace project e), Obj.rq (describeResourceQuota project e)] := by
      funext e
      simp [desiredFor, h]
    rw [hrun.2, hfun]

theorem C15_traversal_order_witness :
    (Reconcile (blindClient acmeExample) (requestFor acmeExample) (Run.start 0)).1
      = (Result.zero, none) ∧
    creates (Reconcile (blindClient acmeExample) (requestFor acmeExample) (Run.start 0)).2.calls
      = acmeExample.Spec.Environments.flatMap (fun e =>
          Obj.ns (describeNamespace acmeExample e) ::
          Obj.rq (describeResourceQuota acmeExample e) ::
          acmeExample.Spec.Members.map (fun m => Obj.rb (describeRoleBinding acmeExample e m))) ∧
    (acmeExample.Spec.Environments = [] →
      creates (Reconcile (blindClient acmeExample) (requestFor acmeExample)
        (Run.start 0)).2.calls = []) ∧
    (acmeExample.Spec.Members = [] →
      creates (Reconcile (blindClient acmeExample) (requestFor acmeExample)
        (Run.start 0)).2.calls
        = acmeExample.Spec.Environments.flatMap (fun e =>
            [Obj.ns (describeNamespace acmeExample e),
             Obj.rq (describeResourceQuota acmeExample e)])) :=
  C15_traversal_order (blindClient acmeExample) (requestFor acmeExample) 0 acmeExample rfl
    (fun _ _ => ⟨Err.NotFound, rfl, rfl⟩) (fun _ _ => rfl)

/-! ## Invariants carried through `Reconcile` -/

theorem reconcileMembers_inv {σ : Type} (c : Client σ) (I : Run σ → Prop) (project : Project)
    (e : Environment)
    (hrb : ∀ m r, I r → I (ensureRoleBinding c project (describeRoleBinding project e m) r).2)
    (ms : List String) : ∀ r, I r → I (reconcileMembers c project e ms r).2 := by
  induction ms with
  | nil => intro r hr; exact hr
  | cons m rest ih =>
    intro r hr
    have h := hrb m r hr
    unfold reconcileMembers
    generalize ensureRoleBinding c project (describeRoleBinding project e m) r = out at h
    obtain ⟨⟨res, err⟩, r1⟩ := out
    cases res with
    | none => exact ih r1 h
    | some v => exact h

theorem reconcileEnvironment_inv {σ : Type} (c : Client σ) (I : Run σ → Prop)
    (project : Project) (e : Environment)
    (hns : ∀ r, I r → I (ensureNamespace c project (describeNamespace project e) r).2)
    (hrq : ∀ r, I r → I (ensureResourceQuota c project (describeResourceQuota project e) r).2)
    (hrb : ∀ m r, I r → I (ensureRoleBinding c project (describeRoleBinding project e m) r).2)
    (r : Run σ) (hr : I r) : I (reconcileEnvironment c project e r).2 := by
  have h := hns r hr
  unfold reconcileEnvironment
  generalize ensureNamespace c project (describeNamespace project e) r = out at h
  obtain ⟨⟨res, err⟩, r1⟩ := out
  cases res with
  | some v => exact h
  | none =>
    have h2 := hrq r1 h
    simp only
    generalize ensureResourceQuota c project (describeResourceQuota project e) r1 = out2 at h2
    obtain ⟨⟨res2, err2⟩, r2⟩ := out2
    cases res2 with
    | some v => exact h2
    | none => exact reconcileMembers_inv c I project e hrb project.Spec.Members r2 h2

theorem reconcileProject_inv {σ : Type} (c : Client σ) (I : Run σ → Prop) (project : Project)
    (hns : ∀ e r, I r → I (ensureNamespace c project (describeNamespace project e) r).2)
    (hrq : ∀ e r, I r → I (ensureResourceQuota c project (describeResourceQuota project e) r).2)
    (hrb : ∀ e m r, I r →
      I (ensureRoleBinding c project (describeRoleBinding project e m) r).2)
    (r : Run σ) (hr : I r) : I (reconcileProject c project r).2 := by
  have loop : ∀ (es : List Environment) (r : Run σ), I r →
      I (reconcileEnvironments c project es r).2 := by
    intro es
    induction es with
    | nil => intro r hr; exact hr
    | cons e rest ih =>
      intro r hr
      have h := reconcileEnvironment_inv c I project e (hns e) (hrq e) (hrb e) r hr
      unfold reconcileEnvironments
      generalize reconcileEnvironment c project e r = out at h
      obtain ⟨res, r1⟩ := out
      cases res with
      | none => exact ih r1 h
      | some v => exact h
  have h := loop project.Spec.Environments r hr
  unfold reconcileProject
  generalize reconcileEnvironments c project project.Spec.Environments r = out at h
  obtain ⟨res, r1⟩ := out
  cases res with
  | none => exact h
  | some v => exact h

theorem cluster_get_strict (k : Key) (cl : Cluster) : (Cluster.Get k cl).2.strict = cl.strict := by
  unfold Cluster.Get
  cases cl.faults cl.tick (Call.get k) with
  | some e => rfl
  | none =>
    cases lookup k cl.objects with
    | some o => rfl
    | none => rfl

theorem cluster_get_faults (k : Key) (cl : Cluster) : (Cluster.Get k cl).2.faults = cl.faults := by
  unfold Cluster.Get
  cases cl.faults cl.tick (Call.get k) with
  | some e => rfl
  | none =>
    cases lookup k cl.objects with
    | some o => rfl
    | none => rfl

theorem cluster_create_faults (o : Obj) (cl : Cluster) :
    (Cluster.Create o cl).2.faults = cl.faults := by
  unfold Cluster.Create
  cases cl.faults cl.tick (Call.create o) with
  | some e => rfl
  | none =>
    simp only
    split <;> rfl

theorem cluster_create_strict (o : Obj) (cl : Cluster) (hs : cl.strict = true) :
    (Cluster.Create o cl).2.strict = true ∧
    ((Cluster.Create o cl).2.objects = cl.objects ∨
     (lookup o.key cl.objects = none ∧ (Cluster.Create o cl).2.objects = cl.objects ++ [o])) := by
  unfold Cluster.Create
  cases cl.faults cl.tick (Call.create o) with
  | some e => exact ⟨hs, Or.inl rfl⟩
  | none =>
    simp only
    cases hl : lookup o.key cl.objects with
    | some x => simp [hs, hl]
    | none =>
      have := store_of_absent o cl.objects ((lookup_eq_none_iff o.key cl.objects).1 hl)
      simp [hs, hl, this]

/-! ## Objects are only added -/

theorem lookup_append_of_some (k : Key) (o : Obj) (a b : List Obj) (h : lookup k a = some o) :
    lookup k (a ++ b) = some o := by
  unfold lookup at h ⊢
  rw [List.find?_append, h]
  rfl

theorem lookup_none_of_append (k : Key) (a b : List Obj) (h : lookup k (a ++ b) = none) :
    lookup k a = none := by
  rw [lookup_eq_none_iff] at h ⊢
  exact fun x hx => h x (List.mem_append_left _ hx)

theorem ensureAt_grows (r0 : Run Cluster) (k : Key) (o : Obj) (r : Run Cluster)
    (h : Grows r0 r) : Grows r0 (ensureAt clusterClient k o r).2 := by
  obtain ⟨_, hcr, hst⟩ := ensureAt_creates_only_when_absent clusterClient k o r
  obtain ⟨hs, added, hobj, hadd⟩ := h
  have g1 : (clusterClient.Get k r.st).2.strict = true := (cluster_get_strict k r.st).trans hs
  have g2 : (clusterClient.Get k r.st).2.objects = r.st.objects := cluster_get_objects k r.st
  cases hnf : lookupNotFound clusterClient k r.st with
  | false =>
    rw [hnf] at hcr hst
    simp only [Bool.false_eq_true, if_false, List.append_nil] at hcr hst
    refine ⟨by rw [hst]; exact g1, added, by rw [hst, g2]; exact hobj, fun x hx => ?_⟩
    rw [hcr]
    exact hadd x hx
  | true =>
    rw [hnf] at hcr hst
    simp only [if_true] at hcr hst
    obtain ⟨c1, c2⟩ := cluster_create_strict o (clusterClient.Get k r.st).2 g1
    refine ⟨by rw [hst]; exact c1, ?_⟩
    rcases c2 with c2 | ⟨c3, c2⟩
    · refine ⟨added, by rw [hst]; exact c2.trans (g2.trans hobj), fun x hx => ?_⟩
      rw [hcr]
      exact ⟨List.mem_append_left _ (hadd x hx).1, (hadd x hx).2⟩
    · refine ⟨added ++ [o], ?_, fun x hx => ?_⟩
      · rw [hst]
        show (Cluster.Create o (clusterClient.Get k r.st).2).2.objects = _
        rw [c2, g2, hobj, List.append_assoc]
      · rw [hcr]
        rcases List.mem_append.1 hx with hx | hx
        · exact ⟨List.mem_append_left _ (hadd x hx).1, (hadd x hx).2⟩
        · rw [List.mem_singleton.1 hx]
          refine ⟨List.mem_append_right _ (List.mem_singleton_self o), ?_⟩
          rw [g2, hobj] at c3
          exact lookup_none_of_append _ _ _ c3

theorem cluster_getProject_same (nn : NamespacedName) (cl : Cluster) :
    (Cluster.GetProject nn cl).2.strict = cl.strict ∧
    (Cluster.GetProject nn cl).2.objects = cl.objects ∧
    (Cluster.GetProject nn cl).2.faults = cl.faults := by
  unfold Cluster.GetProject
  cases cl.faults cl.tick (Call.getProject nn) with
  | some e => exact ⟨rfl, rfl, rfl⟩
  | none =>
    cases cl.projects.find? (fun p => decide (p.Name = nn.Name)) with
    | some p => exact ⟨rfl, rfl, rfl⟩
    | none => exact ⟨rfl, rfl, rfl⟩

theorem reconcile_grows (req : Request) (cl : Cluster) (hstrict : cl.strict = true) :
    Grows (Run.start cl) (Reconcile clusterClient req (Run.start cl)).2 := by
  obtain ⟨p1, p2, _⟩ := cluster_getProject_same req.NamespacedName cl
  have hfetch : Grows (Run.start cl)
      (clientGetProject clusterClient req.NamespacedName (Run.start cl)).2 :=
    ⟨p1.trans hstrict, [], by simpa [clientGetProject, Run.start, clusterClient] using p2,
      fun x hx => absurd hx (List.not_mem_nil x)⟩
  unfold Reconcile
  generalize clientGetProject clusterClient req.NamespacedName (Run.start cl) = out at hfetch
  obtain ⟨res, r1⟩ := out
  cases res with
  | error e => exact hfetch
  | ok project =>
    exact reconcileProject_inv clusterClient (Grows (Run.start cl)) project
      (fun e r hr => ensureAt_grows _ _ _ r hr) (fun e r hr => ensureAt_grows _ _ _ r hr)
      (fun e m r hr => ensureAt_grows _ _ _ r hr) r1 hfetch

/-- C17. Never update or delete: on a cluster that refuses a `Create` on a present key, for
every request, every store and every injected failure, whatever `Reconcile` returns, each
object in the store before the invocation is in the store, unchanged, after it, and the store
after it is the store before it followed by objects that were passed to `Create` and whose keys
held nothing before. -/
theorem C17_never_update_or_delete (req : Request) (cl : Cluster) (hstrict : cl.strict = true) :
    (∀ k o, lookup k cl.objects = some o →
      lookup k (Reconcile clusterClient req (Run.start cl)).2.st.objects = some o) ∧
    ∃ added,
      (Reconcile clusterClient req (Run.start cl)).2.st.objects = cl.objects ++ added ∧
      ∀ x ∈ added,
        x ∈ creates (Reconcile clusterClient req (Run.start cl)).2.calls ∧
        lookup x.key cl.objects = none := by
  obtain ⟨_, added, hobj, hadd⟩ := reconcile_grows req cl hstrict
  refine ⟨fun k o h => ?_, added, hobj, hadd⟩
  rw [hobj]
  exact lookup_append_of_some k o _ _ h

theorem C17_never_update_or_delete_witness :
    (∀ k o, lookup k drifted.objects = some o →
      lookup k (Reconcile clusterClient (requestFor acmeDev)
        (Run.start drifted)).2.st.objects = some o) ∧
    ∃ added,
      (Reconcile clusterClient (requestFor acmeDev) (Run.start drifted)).2.st.objects
        = drifted.objects ++ added ∧
      ∀ x ∈ added,
        x ∈ creates (Reconcile clusterClient (requestFor acmeDev) (Run.start drifted)).2.calls ∧
        lookup x.key drifted.objects = none :=
  C17_never_update_or_delete (requestFor acmeDev) drifted (by rfl)

/-! ## The lookup keys do not depend on the environment -/

theorem quota_key_eq (project : Project) (e : Environment) :
    ensureResourceQuotaKey project (describeResourceQuota project e) = quotaLookupKey project := by
  have h : project.Name ++ "-" ++ "resource-quota" = project.Name ++ "-resource-quota" := by
    rw [String.append_assoc]
    rfl
  simp [ensureResourceQuotaKey, describeResourceQuota, quotaLookupKey, h]

theorem lookup_isSome_iff (k : Key) (objs : List Obj) :
    (lookup k objs).isSome = true ↔ ∃ x ∈ objs, x.key = k := by
  simp [lookup, List.find?_isSome]

theorem store_keeps_keys (o : Obj) (objs : List Obj) :
    ∀ x ∈ objs, ∃ y ∈ store o objs, y.key = x.key := by
  induction objs with
  | nil => intro x hx; cases hx
  | cons a rest ih =>
    intro x hx
    simp only [store]
    by_cases hao : a.key = o.key
    · rw [if_pos hao]
      rcases List.mem_cons.1 hx with h | h
      · exact ⟨o, List.mem_cons_self _ _, by rw [h, hao]⟩
      · exact ⟨x, List.mem_cons_of_mem _ h, rfl⟩
    · rw [if_neg hao]
      rcases List.mem_cons.1 hx with h | h
      · exact ⟨a, List.mem_cons_self _ _, by rw [h]⟩
      · obtain ⟨y, hy, hk⟩ := ih x h
        exact ⟨y, List.mem_cons_of_mem _ hy, hk⟩

theorem lookup_store_isSome (k : Key) (o : Obj) (objs : List Obj)
    (h : (lookup k objs).isSome = true) : (lookup k (store o objs)).isSome = true := by
  rw [lookup_isSome_iff] at h ⊢
  obtain ⟨x, hx, hk⟩ := h
  obtain ⟨y, hy, hyk⟩ := store_keeps_keys o objs x hx
  exact ⟨y, hy, hyk.trans hk⟩

theorem cluster_create_isSome (k : Key) (o : Obj) (cl : Cluster)
    (h : (lookup k cl.objects).isSome = true) :
    (lookup k (Cluster.Create o cl).2.objects).isSome = true := by
  unfold Cluster.Create
  cases cl.faults cl.tick (Call.create o) with
  | some e => exact h
  | none =>
    simp only
    split
    · exact h
    · exact lookup_store_isSome k o cl.objects h

theorem shielded_lookup_hits (project : Project) (r : Run Cluster)
    (h : QuotaShielded project r) :
    lookupNotFound clusterClient (quotaLookupKey project) r.st = false := by
  obtain ⟨h1, h2, _⟩ := h
  unfold lookupNotFound getErr
  show (match (match (Cluster.Get (quotaLookupKey project) r.st).1 with
      | .ok _ => none
      | .error e => some e) with
    | some e => IsNotFound e
    | none => false) = false
  unfold Cluster.Get
  cases hf : r.st.faults r.st.tick (Call.get (quotaLookupKey project)) with
  | some e =>
    have hne : e ≠ Err.NotFound := fun he => h2 _ _ (he ▸ hf)
    cases e with
    | NotFound => exact absurd rfl hne
    | AlreadyExists => rfl
    | Other code => rfl
  | none =>
    cases hl : lookup (quotaLookupKey project) r.st.objects with
    | none => simp [hl] at h1
    | some x => rfl

theorem ensureAt_shielded (project : Project) (k : Key) (o : Obj) (r : Run Cluster)
    (hk : k = quotaLookupKey project ∨ o.kind ≠ Kind.ResourceQuota)
    (h : QuotaShielded project r) : QuotaShielded project (ensureAt clusterClient k o r).2 := by
  obtain ⟨_, hcr, hst⟩ := ensureAt_creates_only_when_absent clusterClient k o r
  have g2 : (clusterClient.Get k r.st).2.objects = r.st.objects := cluster_get_objects k r.st
  have g3 : (clusterClient.Get k r.st).2.faults = r.st.faults := cluster_get_faults k r.st
  cases hnf : lookupNotFound clusterClient k r.st with
  | false =>
    rw [hnf] at hcr hst
    simp only [Bool.false_eq_true, if_false, List.append_nil] at hcr hst
    refine ⟨by rw [hst, g2]; exact h.1, by rw [hst, g3]; exact h.2.1, by rw [hcr]; exact h.2.2⟩
  | true =>
    have hkind : o.kind ≠ Kind.ResourceQuota := by
      rcases hk with hk | hk
      · rw [hk, shielded_lookup_hits project r h] at hnf
        cases hnf
      · exact hk
    rw [hnf] at hcr hst
    simp only [if_true] at hcr hst
    refine ⟨?_, ?_, ?_⟩
    · rw [hst]
      exact cluster_create_isSome _ o _ (by rw [g2]; exact h.1)
    · rw [hst]
      show ∀ n k2, (Cluster.Create o (clusterClient.Get k r.st).2).2.faults n (Call.get k2) ≠ _
      rw [cluster_create_faults, g3]
      exact h.2.1
    · rw [hcr]
      intro x hx
      rcases List.mem_append.1 hx with hx | hx
      · exact h.2.2 x hx
      · rw [List.mem_singleton.1 hx]
        exact hkind

/-- C19. The existence checks of `ensureResourceQuota` and `ensureRoleBinding` do not depend on
the Environment: the key queried for the quota, and for the binding of a member, is the same
for any two Environments of a Project, the quota key being namespace
`project.Name + "-resource-quota"`, name "resource-quota". Consequently, when the store holds
an object at that quota key (and no injected `Get` failure is a not-found error), `Reconcile`
of the Project passes no resource quota to `Create`. -/
theorem C19_lookup_keys_ignore_environment (project : Project) (e1 e2 : Environment)
    (m : String) (req : Request) (cl : Cluster)
    (hfetch : (Cluster.GetProject req.NamespacedName cl).1 = Except.ok project)
    (hheld : (lookup (quotaLookupKey project) cl.objects).isSome = true)
    (hfaults : ∀ n k, cl.faults n (Call.get k) ≠ some Err.NotFound) :
    ensureResourceQuotaKey project (describeResourceQuota project e1)
      = ensureResourceQuotaKey project (describeResourceQuota project e2) ∧
    ensureRoleBindingKey project (describeRoleBinding project e1 m)
      = ensureRoleBindingKey project (describeRoleBinding project e2 m) ∧
    ensureResourceQuotaKey project (describeResourceQuota project e1) = quotaLookupKey project ∧
    ∀ o ∈ creates (Reconcile clusterClient req (Run.start cl)).2.calls,
      o.kind ≠ Kind.ResourceQuota := by
  refine ⟨rfl, rfl, quota_key_eq project e1, ?_⟩
  obtain ⟨_, p2, p3⟩ := cluster_getProject_same req.NamespacedName cl
  have hstart : QuotaShielded project
      (clientGetProject clusterClient req.NamespacedName (Run.start cl)).2 := by
    refine ⟨?_, ?_, ?_⟩
    · show (lookup _ (Cluster.GetProject req.NamespacedName cl).2.objects).isSome = true
      rw [p2]; exact hheld
    · show ∀ n k, (Cluster.GetProject req.NamespacedName cl).2.faults n (Call.get k) ≠ _
      rw [p3]; exact hfaults
    · simp [clientGetProject, Run.start, creates]
  have hres : (clientGetProject clusterClient req.NamespacedName (Run.start cl)).1
      = Except.ok project := hfetch
  unfold Reconcile
  generalize clientGetProject clusterClient req.NamespacedName (Run.start cl) = out
    at hstart hres
  obtain ⟨res, r1⟩ := out
  simp only at hres
  subst hres
  exact (reconcileProject_inv clusterClient (QuotaShielded project) project
    (fun e r hr => ensureAt_shielded project _ _ r (Or.inr (by simp [Obj.kind])) hr)
    (fun e r hr => ensureAt_shielded project _ _ r (Or.inl (quota_key_eq project e)) hr)
    (fun e m r hr => ensureAt_shielded project _ _ r (Or.inr (by simp [Obj.kind])) hr)
    r1 hstart).2.2

theorem C19_lookup_keys_ignore_environment_witness :
    ensureResourceQuotaKey acmeExample (describeResourceQuota acmeExample (envNamed "dev"))
      = ensureResourceQuotaKey acmeExample
          (describeResourceQuota acmeExample (envNamed "prod")) ∧
    ensureRoleBindingKey acmeExample (describeRoleBinding acmeExample (envNamed "dev") "alice")
      = ensureRoleBindingKey acmeExample
          (describeRoleBinding acmeExample (envNamed "prod") "alice") ∧
    ensureResourceQuotaKey acmeExample (describeResourceQuota acmeExample (envNamed "dev"))
      = quotaLookupKey acmeExample ∧
    ∀ o ∈ creates (Reconcile clusterClient (requestFor acmeExample)
        (Run.start shielded)).2.calls,
      o.kind ≠ Kind.ResourceQuota :=
  C19_lookup_keys_ignore_environment acmeExample (envNamed "dev") (envNamed "prod") "alice"
    (requestFor acmeExample) shielded (by rfl) (by decide)
    (fun n k h => by simp [shielded, noFaults] at h)

end ProjectOperator
